import Mathlib

/-!
Verification development for the BigHeads BLE mesh chat node.

This file gives a shallow embedding of the core of the repository
(src/bigheads/crypto.py, src/bigheads/database.py,
src/bigheads/mesh_protocol.py, src/bigheads/utils/helpers.py) and settles a
list of claims about it.

Modelling conventions, used uniformly below:

* Cryptographic primitives are modelled symbolically.  An X25519 private key
  is a natural number (the scalar); the public key of a scalar is a
  constructor application; the Diffie-Hellman exchange of a private scalar
  with a public key returns the unordered pair of the two scalars, which
  captures exactly the algebraic fact the code relies on, namely
  X25519(a, pub b) = X25519(b, pub a).  An HKDF output key is a record of the
  key material, salt and info string, so two derived keys are equal exactly
  when all inputs agree.  A ChaCha20-Poly1305 ciphertext records key, nonce,
  plaintext and aad, and decryption succeeds exactly when key, nonce and aad
  match, returning the recorded plaintext: this is the standard ideal model
  of an AEAD (correctness plus authenticity).
* Base64 and raw-byte encodings of keys are bijections and are elided; a
  public key travels in JSON payloads as the string produced by encodePub.
* Randomness (uuid4 message ids, os.urandom nonces and salts, fresh X25519
  scalars, time.time clock readings) is passed to each operation as explicit
  arguments, since the code draws these values fresh and no property depends
  on their distribution.
* Python dict envelopes are modelled by the Envelope structure; fields that
  the code reads with dict.get and a default are Option-typed.  JSON payload
  values are modelled by the JVal inductive.
* Serialization (compact_json of frames and payloads, json.loads of
  decrypted plaintext, base64 of oversized frames) is kept abstract as
  function fields of the Cfg record, because all settled claims are
  independent of the byte-level encoding.
* The async layer is sequential in the source (one I/O scheduler, each
  handler awaited to completion), so every coroutine becomes a pure state
  transformer returning the new state together with the list of frames
  handed to the BLE transport and the list of UI events emitted.
-/

/-! ## JSON values (payloads and parsed frames) -/

/-- The JSON-like values manipulated by the Python code: payload bodies,
parsed BLE frames, and fields read with dict.get. -/
inductive JVal where
  | null
  | boolV (b : Bool)
  | num (n : Int)
  | str (s : String)
  | arr (xs : List JVal)
  | obj (fields : List (String × JVal))

/-- Dictionary lookup, dict.get(k): first binding wins, none when the value
is not a dict or the key is absent. -/
def jGet (v : JVal) (k : String) : Option JVal :=
  match v with
  | .obj fields => (fields.find? (fun p => p.1 = k)).map (fun p => p.2)
  | _ => none

/-- Dictionary lookup with a default, dict.get(k, d). -/
def jGetD (v : JVal) (k : String) (d : JVal) : JVal :=
  (jGet v k).getD d

/-- Test whether an optional JSON value is a given string, modelling a
Python == comparison against a string literal. -/
def jIsStr (v : Option JVal) (s : String) : Bool :=
  match v with
  | some (.str t) => t = s
  | _ => false

/-- Python truthiness of a JSON value. -/
def pyTruthy : JVal → Bool
  | .null => false
  | .boolV b => b
  | .num n => n ≠ 0
  | .str s => s ≠ ""
  | .arr xs => ¬ xs.isEmpty
  | .obj fields => ¬ fields.isEmpty

/-- Python exceptions that the modelled code can raise. -/
inductive PyErr where
  | valueError
  | typeError
  | attributeError
  | binasciiError
deriving DecidableEq, Repr

/-- Decimal digit value of a character. -/
def digitVal (c : Char) : Option Nat :=
  if c = '0' then some 0 else if c = '1' then some 1
  else if c = '2' then some 2 else if c = '3' then some 3
  else if c = '4' then some 4 else if c = '5' then some 5
  else if c = '6' then some 6 else if c = '7' then some 7
  else if c = '8' then some 8 else if c = '9' then some 9 else none

/-- Accumulating decimal parse of a digit list. -/
def digitsNatGo : List Char → Nat → Option Nat
  | [], acc => some acc
  | c :: cs, acc =>
      match digitVal c with
      | some d => digitsNatGo cs (acc * 10 + d)
      | none => none

/-- Decimal parse of a non-empty digit list. -/
def digitsNat (cs : List Char) : Option Nat :=
  match cs with
  | [] => none
  | _ => digitsNatGo cs 0

/-- Parse of an optionally negated decimal literal, modelling the strings
accepted by Python int(); the extra leniency of int() toward surrounding
whitespace and underscores is immaterial here because the claims only
exercise definitely non-numeric strings. -/
def pyParseInt (s : String) : Option Int :=
  match s.toList with
  | '-' :: rest => (digitsNat rest).map (fun n => -(n : Int))
  | cs => (digitsNat cs).map (fun n => (n : Int))

/-- Python int(x) applied to a JSON value: numbers and bools convert,
numeric strings parse, anything else raises. -/
def pyInt : JVal → Except PyErr Int
  | .num n => .ok n
  | .boolV b => .ok (if b then 1 else 0)
  | .str s =>
      match pyParseInt s with
      | some n => .ok n
      | none => .error .valueError
  | _ => .error .typeError

/-- Python str(x) as used in f-string interpolation of a frame id.  The
container cases approximate the Python repr; no settled claim reaches them
because fragment keys built from container frame ids are never inspected. -/
def pyStr : JVal → String
  | .null => "None"
  | .boolV b => if b then "True" else "False"
  | .num n => toString n
  | .str s => s
  | .arr _ => "<arr>"
  | .obj _ => "<obj>"

/-- Structural boolean equality on JSON values (Python ==). -/
def JVal.beq : JVal → JVal → Bool
  | .null, .null => true
  | .boolV a, .boolV b => a = b
  | .num a, .num b => a = b
  | .str a, .str b => a = b
  | .arr xs, .arr ys =>
      match xs, ys with
      | [], [] => true
      | x :: xs, y :: ys => JVal.beq x y && JVal.beq (.arr xs) (.arr ys)
      | _, _ => false
  | .obj xs, .obj ys =>
      match xs, ys with
      | [], [] => true
      | (k1, v1) :: xs, (k2, v2) :: ys =>
          k1 = k2 && JVal.beq v1 v2 && JVal.beq (.obj xs) (.obj ys)
      | _, _ => false
  | _, _ => false

/-! ## Symbolic cryptography (src/bigheads/crypto.py) -/

/-- An X25519 public key: the point determined by a private scalar. -/
inductive PubKey where
  | pub (priv : Nat)
deriving DecidableEq, Repr

/-- The X25519 exchange priv.exchange(peer_pub), returned as the unordered
pair of the two scalars, so that exchange a (pub b) = exchange b (pub a)
holds by construction, as it does for the real curve operation. -/
def exchange (priv : Nat) : PubKey → Nat × Nat
  | .pub q => (min priv q, max priv q)

/-- Input key material handed to HKDF by this program. -/
inductive IKM where
  | sha256Str (s : String)
  | shared (a b : Nat)
deriving DecidableEq, Repr

/-- Salt handed to HKDF: either the fixed byte string used for the group
key, or a random 16-byte value modelled by a natural number. -/
inductive SaltVal where
  | fixed (s : String)
  | rand (n : Nat)
deriving DecidableEq, Repr

/-- Symbolic HKDF-SHA256 output: a collision-free record of its inputs. -/
structure DerivedKey where
  ikm : IKM
  salt : SaltVal
  info : String
deriving DecidableEq, Repr

/-- Function _hkdf of crypto.py (length is always 32 and is elided). -/
def hkdf (ikm : IKM) (salt : SaltVal) (info : String) : DerivedKey :=
  ⟨ikm, salt, info⟩

/-- Symbolic ChaCha20-Poly1305 ciphertext: records key, nonce, plaintext
and aad.  Plaintext bytes are modelled as a String. -/
structure AeadCt where
  key : DerivedKey
  nonce : Nat
  plaintext : String
  aad : String
deriving DecidableEq, Repr

/-- ChaCha20Poly1305(key).encrypt(nonce, plaintext, aad). -/
def aeadEncrypt (key : DerivedKey) (nonce : Nat) (pt : String) (aad : String) : AeadCt :=
  ⟨key, nonce, pt, aad⟩

/-- ChaCha20Poly1305(key).decrypt(nonce, ct, aad): succeeds exactly when
key, nonce and aad match the values used at encryption time. -/
def aeadDecrypt (key : DerivedKey) (nonce : Nat) (ct : AeadCt) (aad : String) : Option String :=
  if ct.key = key ∧ ct.nonce = nonce ∧ ct.aad = aad then some ct.plaintext else none

/-- Session material for a private chat, class ChatSession of crypto.py.
The base64 wrappers of the stored raw keys are elided. -/
structure ChatSession where
  local_priv : Nat
  peer_pub : PubKey
deriving DecidableEq, Repr

/-- The group payload dict returned by encrypt_group. -/
structure GroupPayload where
  nonce : Nat
  ct : AeadCt
deriving DecidableEq, Repr

/-- The private payload dict returned by encrypt_private. -/
structure PrivatePayload where
  nonce : Nat
  ct : AeadCt
  salt : Nat
  eph_pub : PubKey
deriving DecidableEq, Repr

namespace CryptoManager

/-- Method _group_key: HKDF over SHA-256 of the passphrase with the fixed
salt and info strings. -/
def group_key (passphrase : String) : DerivedKey :=
  hkdf (.sha256Str passphrase) (.fixed "bigheads-group") "group-key"

/-- Method encrypt_group; the random 12-byte nonce is an argument. -/
def encrypt_group (passphrase : String) (plaintext : String) (aad : String)
    (nonce : Nat) : GroupPayload :=
  ⟨nonce, aeadEncrypt (group_key passphrase) nonce plaintext aad⟩

/-- Method decrypt_group; returns none where the library raises. -/
def decrypt_group (passphrase : String) (payload : GroupPayload) (aad : String) :
    Option String :=
  aeadDecrypt (group_key passphrase) payload.nonce payload.ct aad

/-- The HKDF info string used for private chats,
bigheads-private:chat_id:msg_id. -/
def privateInfo (chat_id msg_id : String) : String :=
  "bigheads-private:" ++ chat_id ++ ":" ++ msg_id

/-- Method encrypt_private.  The per-message ephemeral scalar, the 16-byte
salt and the 12-byte nonce are arguments in place of the fresh randomness
drawn by the code. -/
def encrypt_private (plaintext : String) (chat_id msg_id : String)
    (session : ChatSession) (aad : String)
    (ephPriv saltR nonceR : Nat) : PrivatePayload :=
  let shared := exchange ephPriv session.peer_pub
  let key := hkdf (.shared shared.1 shared.2) (.rand saltR) (privateInfo chat_id msg_id)
  ⟨nonceR, aeadEncrypt key nonceR plaintext aad, saltR, .pub ephPriv⟩

/-- Method decrypt_private; returns none where the library raises. -/
def decrypt_private (payload : PrivatePayload) (chat_id msg_id : String)
    (session : ChatSession) (aad : String) : Option String :=
  let shared := exchange session.local_priv payload.eph_pub
  let key := hkdf (.shared shared.1 shared.2) (.rand payload.salt)
    (privateInfo chat_id msg_id)
  aeadDecrypt key payload.nonce payload.ct aad

/-- Method finalize_noise_nn: the initiator keeps its handshake scalar and
the responder public key. -/
def finalize_noise_nn (initiator_priv : Nat) (responder_pub : PubKey) : ChatSession :=
  ⟨initiator_priv, responder_pub⟩

end CryptoManager

/-- Wire encoding of a public key inside a JSON payload (stands for the
base64 of the raw key bytes, a bijection). -/
def encodePub : PubKey → String
  | .pub n => "pk:" ++ toString n

/-- Decoding of a wire-encoded public key; none models undecodable bytes. -/
def decodePub (s : String) : Option PubKey :=
  if s.startsWith "pk:" then ((s.drop 3).toNat?).map .pub else none

/-! ## Envelopes and frames (src/bigheads/mesh_protocol.py data) -/

/-- Payload slot of an envelope: a plaintext JSON body, a group-encrypted
object, or a private-encrypted object.  The enc tag of the envelope is an
independent string field, exactly as in the Python dicts, so an envelope
may carry a tag that does not match the payload shape. -/
inductive EnvPayload where
  | plain (v : JVal)
  | group (p : GroupPayload)
  | priv (p : PrivatePayload)

/-- A mesh envelope.  The field named from in the Python dict is called
sender here because from is reserved in Lean.  msg_id and sender are total
because _process_envelope rejects envelopes where they are not strings;
every other field is read with dict.get or may raise KeyError in the
source, and is therefore Option-typed. -/
structure Envelope where
  msg_id : String
  sender : String
  toId : Option String
  ttl : Option Int
  hop : Option Int
  timestamp : Option Int
  type : Option String
  enc : Option String
  payload : EnvPayload
  reply_to : Option String

/-- A frame handed to the BLE transport: either a single mesh frame or one
fragment of an oversized frame. -/
inductive Frame where
  | mesh (env : Envelope)
  | frag (frame_id : String) (idx total : Nat) (data : String)

/-- A transmitted packet: destination address paired with the frame. -/
abbrev Sent := String × Frame

/-! ## Database state (src/bigheads/database.py) -/

/-- One row of the messages table.  The payload column stores
json.dumps(payload); the encoding is a bijection and the value is kept
structured.  recipient, msg_type and timestamp mirror envelope fields that
the source reads by key. -/
structure MsgRow where
  msg_id : String
  chat_id : String
  sender : String
  recipient : Option String
  msg_type : Option String
  payload : EnvPayload
  timestamp : Option Int
  reply_to : Option String
  outgoing : Bool

/-- One row of the contacts table. -/
structure ContactRow where
  node_id : String
  aliasName : Option String
  last_seen : Option Int
  blocked : Bool

/-- One row of the routing table. -/
structure RouteRow where
  target_node : String
  via_node : String
  hops : Int
  updated_at : Int

/-- One row of the chat_keys table; key_json stores the serialized session. -/
structure ChatKeyRow where
  chat_id : String
  key : ChatSession
  updated_at : Int

/-- One row of the outbox table.  recipient is Option-typed because the
source can pass a missing envelope field through to the insert. -/
structure OutboxRow where
  id : Nat
  recipient : Option String
  envelope : Envelope
  created_at : Int

/-- One row of the reactions table (the autoincrement id is elided; list
order is insertion order). -/
structure ReactionRow where
  msg_id : String
  reactor : String
  reaction : JVal
  timestamp : Int

/-- One row of the typing_state table.  chat_id is a JVal because the
source stores payload.get, which need not be a string. -/
structure TypingRow where
  chat_id : JVal
  node_id : String
  is_typing : Bool
  updated_at : Int

/-- The durable store: one list per table, plus the autoincrement counter
of the outbox and the configured seen-LRU cap. -/
structure DbState where
  messages : List MsgRow
  contacts : List ContactRow
  seen : List (String × Int)
  routing : List RouteRow
  chat_keys : List ChatKeyRow
  outbox : List OutboxRow
  outboxNextId : Nat
  reactions : List ReactionRow
  typing : List TypingRow
  seenLimit : Nat

namespace Database

/-- Method save_message: INSERT OR REPLACE keyed by msg_id.  chatIdField is
the chat_id entry of the dict passed by the caller; when it is falsy the
chat id is derived from the to field as in the source. -/
def save_message (db : DbState) (chatIdField : Option String) (env : Envelope)
    (outgoing : Bool) : DbState :=
  let fallback := if env.toId = some "*" then "broadcast" else env.toId.getD ""
  let chat_id :=
    match chatIdField with
    | some c => if c = "" then fallback else c
    | none => fallback
  let row : MsgRow :=
    ⟨env.msg_id, chat_id, env.sender, env.toId, env.type, env.payload,
      env.timestamp, env.reply_to, outgoing⟩
  { db with messages := db.messages.filter (fun r => r.msg_id ≠ env.msg_id) ++ [row] }

/-- Insert-or-replace step of mark_seen. -/
def upsertSeen (rows : List (String × Int)) (msg_id : String) (t : Int) :
    List (String × Int) :=
  rows.filter (fun r => r.1 ≠ msg_id) ++ [(msg_id, t)]

/-- Trimming step of mark_seen: DELETE the rows past position limit when
ordered by seen_at descending, i.e. keep the limit newest rows.  Ordering
between equal timestamps is unspecified in SQLite; the model fixes it by
the insertion-sort tie-breaking, which every settled claim avoids by
assuming distinct timestamps. -/
def lruTrim (limit : Nat) (rows : List (String × Int)) : List (String × Int) :=
  (rows.insertionSort (fun a b => b.2 ≤ a.2)).take limit

/-- Method mark_seen: upsert, then trim to the configured cap. -/
def mark_seen (db : DbState) (msg_id : String) (t : Int) : DbState :=
  { db with seen := lruTrim db.seenLimit (upsertSeen db.seen msg_id t) }

/-- Method has_seen. -/
def has_seen (db : DbState) (msg_id : String) : Bool :=
  db.seen.any (fun r => r.1 = msg_id)

/-- Method upsert_contact: ON CONFLICT updates only last_seen. -/
def upsert_contact (db : DbState) (node_id : String) (last_seen : Int) : DbState :=
  if db.contacts.any (fun c => c.node_id = node_id) then
    { db with contacts := db.contacts.map (fun c =>
        if c.node_id = node_id then { c with last_seen := some last_seen } else c) }
  else
    { db with contacts := db.contacts ++ [⟨node_id, none, some last_seen, false⟩] }

/-- Method is_blocked: false when there is no contact row. -/
def is_blocked (db : DbState) (node_id : String) : Bool :=
  match db.contacts.find? (fun c => c.node_id = node_id) with
  | some c => c.blocked
  | none => false

/-- Method update_route: last-writer-wins upsert keyed by target. -/
def update_route (db : DbState) (target via : String) (hops : Int) (ts : Int) : DbState :=
  { db with routing :=
      db.routing.filter (fun r => r.target_node ≠ target) ++ [⟨target, via, hops, ts⟩] }

/-- Method get_route; the target may be a missing envelope field, and a SQL
NULL parameter matches no row. -/
def get_route (db : DbState) (target : Option String) : Option RouteRow :=
  target.bind (fun t => db.routing.find? (fun r => r.target_node = t))

/-- Method set_chat_key: upsert keyed by chat_id. -/
def set_chat_key (db : DbState) (chat_id : String) (key : ChatSession) (ts : Int) : DbState :=
  { db with chat_keys :=
      db.chat_keys.filter (fun r => r.chat_id ≠ chat_id) ++ [⟨chat_id, key, ts⟩] }

/-- Method enqueue_outbox: append with the next autoincrement id. -/
def enqueue_outbox (db : DbState) (recipient : Option String) (env : Envelope)
    (ts : Int) : DbState :=
  { db with
      outbox := db.outbox ++ [⟨db.outboxNextId, recipient, env, ts⟩],
      outboxNextId := db.outboxNextId + 1 }

/-- Method dequeue_outbox_for: rows with the given recipient ordered by id
ascending, limited. -/
def dequeue_outbox_for (db : DbState) (recipient : String) (limit : Nat) :
    List OutboxRow :=
  ((db.outbox.filter (fun r => r.recipient = some recipient)).insertionSort
    (fun a b => a.id ≤ b.id)).take limit

/-- Method delete_outbox_ids. -/
def delete_outbox_ids (db : DbState) (ids : List Nat) : DbState :=
  { db with outbox := db.outbox.filter (fun r => r.id ∉ ids) }

/-- Method add_reaction: plain insert. -/
def add_reaction (db : DbState) (msg_id reactor : String) (reaction : JVal)
    (ts : Int) : DbState :=
  { db with reactions := db.reactions ++ [⟨msg_id, reactor, reaction, ts⟩] }

/-- Method set_typing: upsert keyed by chat_id. -/
def set_typing (db : DbState) (chat_id : JVal) (node_id : String) (is_typing : Bool)
    (ts : Int) : DbState :=
  { db with typing :=
      db.typing.filter (fun r => ! JVal.beq r.chat_id chat_id) ++
        [⟨chat_id, node_id, is_typing, ts⟩] }

/-- Method clear_history: DELETE FROM messages, reactions, typing_state. -/
def clear_history (db : DbState) : DbState :=
  { db with messages := [], reactions := [], typing := [] }

end Database

/-! ## Mesh engine state and configuration (src/bigheads/mesh_protocol.py) -/

/-- Association-list lookup for the in-memory dict fields. -/
def alookup {α : Type} (l : List (String × α)) (k : String) : Option α :=
  (l.find? (fun p => p.1 = k)).map (fun p => p.2)

/-- Association-list overwrite, dict assignment d[k] = v. -/
def aset {α : Type} (l : List (String × α)) (k : String) (v : α) : List (String × α) :=
  l.filter (fun p => p.1 ≠ k) ++ [(k, v)]

/-- In-memory state of MeshProtocol (the fragment buffers live in the
separate handler-level FragState). -/
structure MeshState where
  db : DbState
  chatSessions : List (String × ChatSession)
  pendingNoise : List (String × Nat)
  addrToNode : List (String × String)
  nodeToAddr : List (String × String)

/-- Static configuration and environment of a MeshProtocol step: identity,
limits, the group passphrase of the CryptoManager, abstract serialization,
and the observable behaviour of the BLE transport (connected addresses and
per-address write success). -/
structure Cfg where
  nodeId : String
  passphrase : String
  defaultTtl : Int
  packetSizeLimit : Nat
  serFrame : Frame → String
  serJ : JVal → String
  parseJ : String → Option JVal
  toB64 : String → String
  connected : List String
  bleOk : String → Bool

/-- Python x or y on optional strings, where an empty string is falsy. -/
def pyOrStr (a b : Option String) : Option String :=
  match a with
  | some v => if v = "" then b else some v
  | none => b

namespace Mesh

/-- Method _send_frame.  Returns the new state, the packets handed to the
transport, and a boolean observation (absent from the source, which
returns None) that is true exactly when the frame was dispatched rather
than enqueued; the broadcast branch has no failure signal and reports
true. -/
def send_frame (cfg : Cfg) (s : MeshState) (fr : Frame) (env : Envelope)
    (exclude : Option String) (now : Int) : MeshState × List Sent × Bool :=
  if env.toId ≠ some "*" ∧ env.toId ≠ some cfg.nodeId then
    let route := Database.get_route s.db env.toId
    let viaNode := route.map (fun r => r.via_node)
    let addr := pyOrStr (alookup s.nodeToAddr (viaNode.getD ""))
      (env.toId.bind (fun t => alookup s.nodeToAddr t))
    match addr with
    | some a =>
        if some a ≠ exclude ∧ cfg.bleOk a then
          (s, [(a, fr)], true)
        else
          ({ s with db := Database.enqueue_outbox s.db env.toId env now }, [], false)
    | none =>
        ({ s with db := Database.enqueue_outbox s.db env.toId env now }, [], false)
  else
    match exclude with
    | some e =>
        (s, (cfg.connected.filter (fun a => a ≠ e ∧ cfg.bleOk a)).map (fun a => (a, fr)), true)
    | none =>
        (s, (cfg.connected.filter cfg.bleOk).map (fun a => (a, fr)), true)

/-- Chunking of the base64 text into pieces of a positive length, the list
comprehension of _send_envelope_raw.  A zero chunk length is unreachable
because the caller passes max 30 (limit - 140). -/
def chunkChars : Nat → List Char → List (List Char)
  | _, [] => []
  | 0, _ :: _ => []
  | n + 1, c :: cs => (c :: cs).take (n + 1) :: chunkChars (n + 1) ((c :: cs).drop (n + 1))
termination_by _n cs => cs.length
decreasing_by
  simp only [List.length_drop, List.length_cons]
  omega

/-- Sequential dispatch of a list of frames for one envelope, the fragment
loop of _send_envelope_raw. -/
def send_frames (cfg : Cfg) (s : MeshState) (env : Envelope) (exclude : Option String)
    (now : Int) : List Frame → MeshState × List Sent × Bool
  | [] => (s, [], true)
  | fr :: rest =>
      let r1 := send_frame cfg s fr env exclude now
      let r2 := send_frames cfg r1.1 env exclude now rest
      (r2.1, r1.2.1 ++ r2.2.1, r1.2.2 && r2.2.2)

/-- Method _send_envelope_raw: frame directly when the serialized frame
fits, else base64 the frame and send numbered fragments.  frameId stands
for the fresh new_msg_id drawn in the fragmenting branch. -/
def send_envelope_raw (cfg : Cfg) (s : MeshState) (env : Envelope)
    (exclude : Option String) (now : Int) (frameId : String) :
    MeshState × List Sent × Bool :=
  let raw := cfg.serFrame (Frame.mesh env)
  if raw.length ≤ cfg.packetSizeLimit then
    send_frame cfg s (Frame.mesh env) env exclude now
  else
    let b64 := cfg.toB64 raw
    let chunkLen := max 30 (cfg.packetSizeLimit - 140)
    let chunks := (chunkChars chunkLen b64.toList).map (fun cs => String.mk cs)
    let total := chunks.length
    let frames := (chunks.enum).map (fun p => Frame.frag frameId p.1 total p.2)
    send_frames cfg s env exclude now frames

/-- Normalization of a payload before encryption: a dict is kept, anything
else is wrapped as a text object. -/
def normalizePayload (p : JVal) : JVal :=
  match p with
  | .obj fields => .obj fields
  | v => .obj [("text", v)]

/-- Persistence step of _send_payload: save_message of the envelope dict
with chat_id set and the payload replaced by the cleartext. -/
def saveOutgoing (s : MeshState) (env : Envelope) (toN : String) (cleartext : JVal) :
    MeshState :=
  let db2 := Database.save_message s.db (some (if toN = "*" then "broadcast" else toN))
    ({ env with payload := .plain cleartext }) true
  { s with db := db2 }

/-- The branch of _send_payload taken for encrypted=False sends: tag the
envelope enc=none, persist it outgoing, and hand it to the framing layer.
This is exactly the path every send_system(..., encrypted=False) call
takes, and it is split out because the handshake bootstrap inside
_send_payload re-enters _send_payload only through this branch. -/
def send_plain (cfg : Cfg) (s : MeshState) (toN msgType : String) (payload : JVal)
    (replyTo : Option String) (msgId : String) (now : Int) (frameId : String) :
    MeshState × List Sent × Envelope :=
  let env : Envelope :=
    { msg_id := msgId, sender := cfg.nodeId, toId := some toN,
      ttl := some cfg.defaultTtl, hop := some 0, timestamp := some now,
      type := some msgType, enc := some "none", payload := .plain payload,
      reply_to := replyTo }
  let s1 := saveOutgoing s env toN payload
  let r := send_envelope_raw cfg s1 env none now frameId
  (r.1, r.2.1, env)

/-- Method start_private_chat: draw a handshake scalar, remember it in
pending_noise, and send the plaintext noise_init system message. -/
def start_private_chat (cfg : Cfg) (s : MeshState) (peer : String) (initPriv : Nat)
    (msgId : String) (now : Int) (frameId : String) : MeshState × List Sent × Envelope :=
  let pubStr := encodePub (PubKey.pub initPriv)
  let s1 := { s with pendingNoise := aset s.pendingNoise peer initPriv }
  send_plain cfg s1 peer "system"
    (JVal.obj [("kind", .str "noise_init"), ("pub", .str pubStr)]) none msgId now frameId

/-- Random values drawn during one _send_payload call: a fresh message id,
the per-message encryption randomness, and the values used when the
no-session branch bootstraps a handshake. -/
structure SendRand where
  msgId : String
  ephPriv : Nat
  salt : Nat
  nonce : Nat
  frameId : String
  hsPriv : Nat
  hsMsgId : String
  hsFrameId : String

/-- Result of one _send_payload call.  envelope is the return value of the
method; originated additionally lists the handshake envelope built by the
no-session branch, an observation used to state origination claims. -/
structure SendResult where
  state : MeshState
  sent : List Sent
  envelope : Envelope
  originated : List Envelope

/-- Method _send_payload. -/
def send_payload (cfg : Cfg) (s : MeshState) (toN msgType : String) (payload : JVal)
    (replyTo : Option String) (encrypted : Option Bool) (r : SendRand) (now : Int) :
    SendResult :=
  let baseEnv : Envelope :=
    { msg_id := r.msgId, sender := cfg.nodeId, toId := some toN,
      ttl := some cfg.defaultTtl, hop := some 0, timestamp := some now,
      type := some msgType, enc := none, payload := .plain payload,
      reply_to := replyTo }
  let shouldEncrypt := encrypted.getD true
  if ¬ shouldEncrypt then
    let env := { baseEnv with enc := some "none" }
    let s1 := saveOutgoing s env toN payload
    let res := send_envelope_raw cfg s1 env none now r.frameId
    ⟨res.1, res.2.1, env, [env]⟩
  else if toN = "*" then
    let ct := CryptoManager.encrypt_group cfg.passphrase
      (cfg.serJ (normalizePayload payload)) r.msgId r.nonce
    let env := { baseEnv with enc := some "group", payload := .group ct }
    let s1 := saveOutgoing s env toN payload
    let res := send_envelope_raw cfg s1 env none now r.frameId
    ⟨res.1, res.2.1, env, [env]⟩
  else
    match alookup s.chatSessions toN with
    | none =>
        let env := { baseEnv with enc := some "private" }
        let hs := start_private_chat cfg s toN r.hsPriv r.hsMsgId now r.hsFrameId
        let s2 := { hs.1 with db := Database.enqueue_outbox hs.1.db (some toN) env now }
        ⟨s2, hs.2.1, env, [env, hs.2.2]⟩
    | some session =>
        let ct := CryptoManager.encrypt_private (cfg.serJ (normalizePayload payload))
          toN r.msgId session r.msgId r.ephPriv r.salt r.nonce
        let env := { baseEnv with enc := some "private", payload := .priv ct }
        let s1 := saveOutgoing s env toN payload
        let res := send_envelope_raw cfg s1 env none now r.frameId
        ⟨res.1, res.2.1, env, [env]⟩

/-- Method send_text. -/
def send_text (cfg : Cfg) (s : MeshState) (toN text : String) (replyTo : Option String)
    (r : SendRand) (now : Int) : SendResult :=
  send_payload cfg s toN "text" (.str text) replyTo none r now

/-- Method send_system: always passes a concrete encrypted flag through. -/
def send_system (cfg : Cfg) (s : MeshState) (toN : String) (payload : JVal)
    (encrypted : Bool) (r : SendRand) (now : Int) : SendResult :=
  send_payload cfg s toN "system" payload none (some encrypted) r now

/-- Method send_typing: a system typing payload, encrypted only for
broadcast. -/
def send_typing (cfg : Cfg) (s : MeshState) (chatId toN : String) (isTyping : Bool)
    (r : SendRand) (now : Int) : SendResult :=
  send_system cfg s toN
    (JVal.obj [("kind", .str "typing"), ("chat_id", .str chatId),
      ("typing", .boolV isTyping)])
    (toN = "*") r now

/-- Method send_reaction: a system reaction payload with default
encryption, reply_to set to the reacted message. -/
def send_reaction (cfg : Cfg) (s : MeshState) (toN msgId reaction : String)
    (r : SendRand) (now : Int) : SendResult :=
  send_payload cfg s toN "system"
    (JVal.obj [("kind", .str "reaction"), ("reaction", .str reaction)])
    (some msgId) none r now

/-- One chunk send of send_file: a file or image part with default
encryption (the chunking loop of send_file sends each part through
_send_payload). -/
def send_file_part (cfg : Cfg) (s : MeshState) (toN : String) (asImage : Bool)
    (part : JVal) (r : SendRand) (now : Int) : SendResult :=
  send_payload cfg s toN (if asImage then "image" else "file") part none none r now

/-- One iteration of the hello beacon loop: a group-encrypted broadcast
system hello. -/
def hello_beacon (cfg : Cfg) (s : MeshState) (r : SendRand) (now : Int) : SendResult :=
  send_system cfg s "*"
    (JVal.obj [("kind", .str "hello"), ("node_id", .str cfg.nodeId),
      ("ts", .num now)])
    true r now

end Mesh

namespace Mesh

/-- Method _decrypt_envelope.  Every exception of the source try block
(missing payload keys, wrongly shaped payload objects, AEAD failure, JSON
decode failure of the plaintext) is caught and logged there, so all of
these return none here. -/
def decrypt_envelope (cfg : Cfg) (s : MeshState) (env : Envelope) : Option Envelope :=
  let enc := env.enc.getD "group"
  let payloadOpt : Option EnvPayload :=
    if enc = "none" then
      some env.payload
    else if enc = "group" then
      match env.payload with
      | .group p =>
          match CryptoManager.decrypt_group cfg.passphrase p env.msg_id with
          | some pt => (cfg.parseJ pt).map .plain
          | none => none
      | _ => none
    else if enc = "private" then
      let chatIdOpt := if env.sender ≠ cfg.nodeId then some env.sender else env.toId
      match chatIdOpt with
      | none => none
      | some chat_id =>
          match alookup s.chatSessions chat_id with
          | none => none
          | some session =>
              match env.payload with
              | .priv p =>
                  match CryptoManager.decrypt_private p chat_id env.msg_id session
                      env.msg_id with
                  | some pt => (cfg.parseJ pt).map .plain
                  | none => none
              | _ => none
    else none
  payloadOpt.map (fun pl => { env with payload := pl })

/-- Pure core of _forward_if_needed: the forwarded envelope, or none when
the incoming ttl is exhausted, the envelope is addressed to this node, or
the decremented ttl is zero. -/
def forwarded_envelope (nodeId : String) (env : Envelope) : Option Envelope :=
  let ttl := env.ttl.getD 0
  if ttl ≤ 0 then none
  else if env.toId = some nodeId then none
  else
    let fwd := { env with ttl := some (ttl - 1), hop := some (env.hop.getD 0 + 1) }
    if ttl - 1 ≤ 0 then none else some fwd

/-- Method _forward_if_needed: hand the forwarded envelope to the framing
layer, excluding the address it arrived on. -/
def forward_if_needed (cfg : Cfg) (s : MeshState) (env : Envelope)
    (incomingAddr : Option String) (now : Int) (frameId : String) :
    MeshState × List Sent :=
  match forwarded_envelope cfg.nodeId env with
  | none => (s, [])
  | some fwd =>
      let r := send_envelope_raw cfg s fwd incomingAddr now frameId
      (r.1, r.2.1)

/-- UI events pushed through the ui_callback. -/
inductive UiEvent where
  | peerHello (node_id : String) (timestamp : Option Int)
  | reactionEv (env : Envelope)
  | typingEv (env : Envelope)
  | message (env : Envelope)

/-- Method _on_noise_init: store the responder session, persist the chat
key, and answer with a plaintext noise_resp.  respPriv stands for the
fresh responder scalar.  Undecodable key strings make the source raise
inside respond_noise_nn; that path is unreachable for keys produced by
this program and is modelled as a silent return. -/
def on_noise_init (cfg : Cfg) (s : MeshState) (env : Envelope) (respPriv : Nat)
    (respMsgId : String) (now : Int) (respFrameId : String) :
    MeshState × List Sent :=
  match env.payload with
  | .plain p =>
      match jGet p "pub" with
      | some (.str initPubStr) =>
          match decodePub initPubStr with
          | none => (s, [])
          | some initPub =>
              let session : ChatSession := ⟨respPriv, initPub⟩
              let chat_id := env.sender
              let s1 := { s with chatSessions := aset s.chatSessions chat_id session }
              let s2 := { s1 with db := Database.set_chat_key s1.db chat_id session now }
              let r := send_plain cfg s2 chat_id "system"
                (JVal.obj [("kind", .str "noise_resp"),
                  ("pub", .str (encodePub (PubKey.pub respPriv)))])
                none respMsgId now respFrameId
              (r.1, r.2.1)
      | _ => (s, [])
  | _ => (s, [])

/-- Method _on_noise_resp: pop the pending initiator scalar, then store
the finalized session and persist the chat key. -/
def on_noise_resp (_cfg : Cfg) (s : MeshState) (env : Envelope) (now : Int) : MeshState :=
  let chat_id := env.sender
  match alookup s.pendingNoise chat_id with
  | none => s
  | some initPriv =>
      let s1 := { s with pendingNoise := s.pendingNoise.filter (fun p => p.1 ≠ chat_id) }
      match env.payload with
      | .plain p =>
          match jGet p "pub" with
          | some (.str respPubStr) =>
              match decodePub respPubStr with
              | none => s1
              | some respPub =>
                  let session := CryptoManager.finalize_noise_nn initPriv respPub
                  let s2 := { s1 with chatSessions := aset s1.chatSessions chat_id session }
                  { s2 with db := Database.set_chat_key s2.db chat_id session now }
          | _ => s1
      | _ => s1

/-- One iteration of the _flush_outbox_for loop: resend each dequeued
envelope and collect the row ids to delete.  The returned log of
(row, dispatched) pairs is an observation absent from the source, used to
state which resends failed. -/
def flush_loop (cfg : Cfg) (s : MeshState) (fids : Nat → String) (i : Nat) (now : Int) :
    List OutboxRow → MeshState × List Sent × List Nat × List (OutboxRow × Bool)
  | [] => (s, [], [], [])
  | row :: rest =>
      let r1 := send_envelope_raw cfg s row.envelope none now (fids i)
      let r2 := flush_loop cfg r1.1 fids (i + 1) now rest
      (r2.1, r1.2.1 ++ r2.2.1, row.id :: r2.2.2.1, (row, r1.2.2) :: r2.2.2.2)

/-- Method _flush_outbox_for: dequeue up to 100 rows for the node, resend
each, then delete every dequeued row id. -/
def flush_outbox_for (cfg : Cfg) (s : MeshState) (nodeId : String) (fids : Nat → String)
    (now : Int) : MeshState × List Sent × List (OutboxRow × Bool) :=
  let pending := Database.dequeue_outbox_for s.db nodeId 100
  if pending.isEmpty then (s, [], [])
  else
    let r := flush_loop cfg s fids 0 now pending
    ({ r.1 with db := Database.delete_outbox_ids r.1.db r.2.2.1 }, r.2.1, r.2.2.2)

/-- Random values needed while processing one inbound envelope: the
responder scalar and message id for a possible noise_init answer, fresh
frame ids for outbox flushing, and a frame id for the forward step. -/
structure ProcRand where
  respPriv : Nat
  respMsgId : String
  respFrameId : String
  flushFrameIds : Nat → String
  fwdFrameId : String

/-- Method _dispatch_message: system sub-kind handling followed by the
unconditional message event. -/
def dispatch_message (cfg : Cfg) (s : MeshState) (env : Envelope) (r : ProcRand)
    (now : Int) : MeshState × List Sent × List UiEvent :=
  let step :=
    match env.type, env.payload with
    | some "system", .plain (JVal.obj fields) =>
        let p := JVal.obj fields
        let kind := jGet p "kind"
        if jIsStr kind "hello" then
          let fl := flush_outbox_for cfg s env.sender r.flushFrameIds now
          (fl.1, fl.2.1, [UiEvent.peerHello env.sender env.timestamp])
        else if jIsStr kind "noise_init" then
          let ni := on_noise_init cfg s env r.respPriv r.respMsgId now r.respFrameId
          (ni.1, ni.2, ([] : List UiEvent))
        else if jIsStr kind "noise_resp" then
          (on_noise_resp cfg s env now, [], [])
        else if jIsStr kind "reaction" then
          let db2 := Database.add_reaction s.db
            (env.reply_to.getD "") env.sender (jGetD p "reaction" (.str "")) now
          ({ s with db := db2 }, [], [UiEvent.reactionEv env])
        else if jIsStr kind "typing" then
          let db2 := Database.set_typing s.db (jGetD p "chat_id" (.str ""))
            env.sender (pyTruthy (jGetD p "typing" (.boolV false))) now
          ({ s with db := db2 }, [], [UiEvent.typingEv env])
        else (s, [], [])
    | _, _ => (s, [], [])
  (step.1, step.2.1, step.2.2 ++ [UiEvent.message env])

/-- Method _process_envelope.  The incoming dict is an Envelope, i.e. the
guard that msg_id and the sender are strings has already been applied at
the handler boundary. -/
def process_envelope (cfg : Cfg) (s : MeshState) (env : Envelope)
    (incomingAddr : Option String) (now : Int) (r : ProcRand) :
    MeshState × List Sent × List UiEvent :=
  if Database.has_seen s.db env.msg_id then (s, [], [])
  else
    let s1 := { s with db := Database.mark_seen s.db env.msg_id now }
    let s2 :=
      match incomingAddr with
      | some a =>
          let sa := { s1 with
            addrToNode := aset s1.addrToNode a env.sender,
            nodeToAddr := aset s1.nodeToAddr env.sender a }
          let dbr := Database.update_route sa.db env.sender env.sender
            (env.hop.getD 0 + 1) now
          { sa with db := Database.upsert_contact dbr env.sender now }
      | none => s1
    if Database.is_blocked s2.db env.sender then (s2, [], [])
    else
      match decrypt_envelope cfg s2 env with
      | none => (s2, [], [])
      | some penv =>
          let target := penv.toId
          let isVisible := target = some "*" ∨ target = some cfg.nodeId
          let s3 :=
            if isVisible ∧ (penv.type = some "text" ∨ penv.type = some "file" ∨
                penv.type = some "image" ∨ penv.type = some "system") then
              let chat_id := if target = some "*" then "broadcast" else env.sender
              { s2 with db := Database.save_message s2.db (some chat_id) penv false }
            else s2
          let disp :=
            if isVisible then dispatch_message cfg s3 penv r now
            else (s3, [], [])
          let fwd := forward_if_needed cfg disp.1 env incomingAddr now r.fwdFrameId
          (fwd.1, disp.2.1 ++ fwd.2, disp.2.2)

end Mesh

/-! ## BLE packet handler (handle_ble_packet and _collect_fragment) -/

/-- Fragment reassembly buffers of MeshProtocol: _fragments maps the
address:frame_id key to the index-to-chunk dict, _fragment_meta remembers
(total, frame_id). -/
structure FragState where
  fragments : List (String × List (Int × String))
  fragmentMeta : List (String × (Int × JVal))

/-- Integer-keyed dict lookup for a fragment chunk map. -/
def ilookup (l : List (Int × String)) (k : Int) : Option String :=
  (l.find? (fun p => p.1 = k)).map (fun p => p.2)

/-- Integer-keyed dict overwrite for a fragment chunk map. -/
def iset (l : List (Int × String)) (k : Int) (v : String) : List (Int × String) :=
  l.filter (fun p => p.1 ≠ k) ++ [(k, v)]

namespace Mesh

/-- Method _collect_fragment.  fromB64 stands for base64.b64decode, which
can raise on undecodable input.  The result pairs the fragment state at
return (or raise) time with either the raised exception or the optional
reassembled frame bytes.  The int conversions of the total and idx fields
raise before any state is touched, exactly as in the source. -/
def collect_fragment (fromB64 : String → Except PyErr String) (fs : FragState)
    (frag : JVal) (address : String) : FragState × Except PyErr (Option String) :=
  match jGet frag "frame_id" with
  | none => (fs, .ok none)
  | some fid =>
      if ¬ pyTruthy fid then (fs, .ok none)
      else
        match pyInt (jGetD frag "total" (.num 0)) with
        | .error e => (fs, .error e)
        | .ok total =>
            match pyInt (jGetD frag "idx" (.num 0)) with
            | .error e => (fs, .error e)
            | .ok idx =>
                let dataOpt := jGet frag "data"
                let dataStr : Option String :=
                  match dataOpt with
                  | some (.str d) => some d
                  | _ => none
                match dataStr with
                | none => (fs, .ok none)
                | some data =>
                    if total ≤ 0 ∨ idx < 0 ∨ idx ≥ total then (fs, .ok none)
                    else
                      let key := address ++ ":" ++ pyStr fid
                      let m := iset ((alookup fs.fragments key).getD []) idx data
                      let fs1 : FragState :=
                        ⟨aset fs.fragments key m,
                          aset fs.fragmentMeta key (total, fid)⟩
                      if (m.length : Int) < total then (fs1, .ok none)
                      else
                        let joined := String.join ((List.range total.toNat).map
                          (fun i => (ilookup m (i : Int)).getD ""))
                        let fs2 : FragState :=
                          ⟨fs1.fragments.filter (fun p => p.1 ≠ key),
                            fs1.fragmentMeta.filter (fun p => p.1 ≠ key)⟩
                        match fromB64 joined with
                        | .ok bytes => (fs2, .ok (some bytes))
                        | .error e => (fs2, .error e)

/-- Outcome of handle_ble_packet for one inbound packet: an uncaught
exception, a silent drop, or an envelope dict handed to
_process_envelope. -/
inductive HandlerOutcome where
  | raised (e : PyErr)
  | dropped
  | toProcess (env : JVal)

/-- The mesh stage of handle_ble_packet: kind must be the string mesh and
env must be a dict; reading kind from a non-dict parsed value raises
AttributeError, as packet.get does in Python. -/
def mesh_stage (packet : JVal) (fs : FragState) : FragState × HandlerOutcome :=
  match packet with
  | .obj _ =>
      if jIsStr (jGet packet "kind") "mesh" then
        match jGet packet "env" with
        | some (JVal.obj f) => (fs, .toProcess (.obj f))
        | _ => (fs, .dropped)
      else (fs, .dropped)
  | _ => (fs, .raised .attributeError)

/-- Method handle_ble_packet.  parse stands for safe_json_loads, which
returns the parsed JSON value or none; note that it does not check that
the value is a dict, so a parsed array or scalar reaches packet.get and
raises. -/
def handle_ble_packet (parse : String → Option JVal)
    (fromB64 : String → Except PyErr String) (fs : FragState)
    (address raw : String) : FragState × HandlerOutcome :=
  match parse raw with
  | none => (fs, .dropped)
  | some packet =>
      if ¬ pyTruthy packet then (fs, .dropped)
      else
        match packet with
        | .obj _ =>
            if jIsStr (jGet packet "kind") "frag" then
              let cf := collect_fragment fromB64 fs packet address
              match cf.2 with
              | .error e => (cf.1, .raised e)
              | .ok none => (cf.1, .dropped)
              | .ok (some assembled) =>
                  match parse assembled with
                  | none => (cf.1, .dropped)
                  | some p2 =>
                      if ¬ pyTruthy p2 then (cf.1, .dropped)
                      else mesh_stage p2 cf.1
            else mesh_stage packet fs
        | _ => (fs, .raised .attributeError)

end Mesh

/-! ## Shared concrete fixtures for witnesses and counterexamples -/

/-- Empty database used by the concrete scenarios. -/
def emptyDb : DbState := ⟨[], [], [], [], [], [], 0, [], [], 50000⟩

/-- Configuration of node aaaaaaaa for the concrete scenarios: the abstract
serializer returns a short constant so every frame fits in one packet, and
every BLE write succeeds. -/
def cfgA : Cfg :=
  { nodeId := "aaaaaaaa", passphrase := "pass", defaultTtl := 12,
    packetSizeLimit := 380, serFrame := fun _ => "f", serJ := fun _ => "pt",
    parseJ := fun _ => none, toB64 := fun s => s, connected := ["addrB"],
    bleOk := fun _ => true }

/-- Configuration of node bbbbbbbb for the concrete scenarios. -/
def cfgB : Cfg := { cfgA with nodeId := "bbbbbbbb" }

/-! ## Claim C10 -/

/-- C10: clear_history empties exactly the messages, reactions and
typing_state tables and leaves contacts, seen_messages, routing,
chat_keys and the outbox (rows and autoincrement counter) untouched. -/
theorem claim_C10_clear_history (db : DbState) :
    (Database.clear_history db).messages = [] ∧
    (Database.clear_history db).reactions = [] ∧
    (Database.clear_history db).typing = [] ∧
    (Database.clear_history db).contacts = db.contacts ∧
    (Database.clear_history db).seen = db.seen ∧
    (Database.clear_history db).routing = db.routing ∧
    (Database.clear_history db).chat_keys = db.chat_keys ∧
    (Database.clear_history db).outbox = db.outbox ∧
    (Database.clear_history db).outboxNextId = db.outboxNextId := by
  simp [Database.clear_history]

/-! ## Claim C2 -/

/-- C2: an inbound envelope whose msg_id is already recorded in
seen_messages is dropped before decryption, persistence, dispatch and
forwarding: the state is returned unchanged with no transmitted frame and
no UI event. -/
theorem claim_C2_seen_duplicate_dropped (cfg : Cfg) (s : MeshState) (env : Envelope)
    (incomingAddr : Option String) (now : Int) (r : Mesh.ProcRand)
    (h : Database.has_seen s.db env.msg_id = true) :
    Mesh.process_envelope cfg s env incomingAddr now r = (s, [], []) := by
  simp [Mesh.process_envelope, h]

/-- Seen table holding one message id, for the C2 witness. -/
def c2State : MeshState := ⟨{ emptyDb with seen := [("m1", 5)] }, [], [], [], []⟩

/-- Duplicate copy of message m1 as it would arrive over the mesh. -/
def c2Env : Envelope :=
  ⟨"m1", "bbbbbbbb", some "aaaaaaaa", some 3, some 0, some 10, some "text",
    some "none", .plain (.str "hi"), none⟩

/-- Randomness bundle with inert values for receive-path scenarios. -/
def inertProcRand : Mesh.ProcRand := ⟨0, "r-msg", "r-frame", fun _ => "fl-frame", "fwd-frame"⟩

/-- Witness for C2 at a concrete already-seen envelope. -/
theorem claim_C2_witness :
    Mesh.process_envelope cfgA c2State c2Env (some "addr1") 11 inertProcRand
      = (c2State, [], []) :=
  claim_C2_seen_duplicate_dropped cfgA c2State c2Env (some "addr1") 11 inertProcRand rfl

/-! ## Claim C6 -/

/-- C6: when an inbound envelope is forwarded, the forwarded envelope
preserves msg_id, from, to, payload, enc, timestamp, type and reply_to,
its ttl is the incoming ttl minus one and its hop the incoming hop plus
one; and nothing is forwarded when the incoming ttl is zero, when the
decremented ttl is zero, or when the envelope is addressed to this node
(the frame-level step then transmits nothing). -/
theorem claim_C6_forwarding (cfg : Cfg) (s : MeshState) (env fwd : Envelope)
    (incomingAddr : Option String) (now : Int) (fid : String) :
    (Mesh.forwarded_envelope cfg.nodeId env = some fwd →
      fwd.msg_id = env.msg_id ∧ fwd.sender = env.sender ∧ fwd.toId = env.toId ∧
      fwd.payload = env.payload ∧ fwd.enc = env.enc ∧
      fwd.timestamp = env.timestamp ∧ fwd.type = env.type ∧
      fwd.reply_to = env.reply_to ∧
      fwd.ttl = some (env.ttl.getD 0 - 1) ∧ fwd.hop = some (env.hop.getD 0 + 1)) ∧
    (env.ttl.getD 0 = 0 → Mesh.forwarded_envelope cfg.nodeId env = none) ∧
    (env.ttl.getD 0 - 1 = 0 → Mesh.forwarded_envelope cfg.nodeId env = none) ∧
    (env.toId = some cfg.nodeId → Mesh.forwarded_envelope cfg.nodeId env = none) ∧
    (Mesh.forwarded_envelope cfg.nodeId env = none →
      Mesh.forward_if_needed cfg s env incomingAddr now fid = (s, [])) := by
  refine ⟨?_, ?_, ?_, ?_, ?_⟩
  · intro h
    unfold Mesh.forwarded_envelope at h
    by_cases h1 : env.ttl.getD 0 ≤ 0
    · simp [h1] at h
    · simp only [h1, if_false] at h
      by_cases h2 : env.toId = some cfg.nodeId
      · simp [h2] at h
      · simp only [h2, if_false] at h
        by_cases h3 : env.ttl.getD 0 - 1 ≤ 0
        · simp [h3] at h
        · simp only [h3, if_false, Option.some.injEq] at h
          subst h
          simp
  · intro h
    unfold Mesh.forwarded_envelope
    simp [h]
  · intro h
    unfold Mesh.forwarded_envelope
    by_cases h1 : env.ttl.getD 0 ≤ 0
    · simp [h1]
    · simp [h1, h]
  · intro h
    unfold Mesh.forwarded_envelope
    by_cases h1 : env.ttl.getD 0 ≤ 0
    · simp [h1]
    · simp [h1, h]
  · intro h
    unfold Mesh.forward_if_needed
    simp [h]

/-- Envelope in transit through node aaaaaaaa, for the C6 witness. -/
def c6Env : Envelope :=
  ⟨"m6", "bbbbbbbb", some "cccccccc", some 3, some 2, some 10, some "text",
    some "group", .plain (.str "x"), none⟩

/-- Expected forwarded copy of c6Env. -/
def c6Fwd : Envelope :=
  ⟨"m6", "bbbbbbbb", some "cccccccc", some 2, some 3, some 10, some "text",
    some "group", .plain (.str "x"), none⟩

/-- Envelope addressed to this node, never forwarded, for the C6 witness. -/
def c6SelfEnv : Envelope :=
  ⟨"m7", "bbbbbbbb", some "aaaaaaaa", some 3, some 0, some 10, some "text",
    some "group", .plain (.str "x"), none⟩

/-- Witness for C6: the preservation conjunct applied to a concrete
forwarded envelope, and the self-addressed conjunct applied to a concrete
direct message. -/
theorem claim_C6_witness :
    (c6Fwd.msg_id = c6Env.msg_id ∧ c6Fwd.sender = c6Env.sender ∧
      c6Fwd.toId = c6Env.toId ∧ c6Fwd.payload = c6Env.payload ∧
      c6Fwd.enc = c6Env.enc ∧ c6Fwd.timestamp = c6Env.timestamp ∧
      c6Fwd.type = c6Env.type ∧ c6Fwd.reply_to = c6Env.reply_to ∧
      c6Fwd.ttl = some (c6Env.ttl.getD 0 - 1) ∧
      c6Fwd.hop = some (c6Env.hop.getD 0 + 1)) ∧
    Mesh.forwarded_envelope cfgA.nodeId c6SelfEnv = none :=
  ⟨(claim_C6_forwarding cfgA c2State c6Env c6Fwd none 0 "").1 rfl,
   (claim_C6_forwarding cfgA c2State c6SelfEnv c6Fwd none 0 "").2.2.2.1 rfl⟩

/-! ## Claim C1 -/

/-- Session of node aaaaaaaa for its chat with bbbbbbbb after a completed
handshake (local scalar 1, peer public key of scalar 2). -/
def c1SessionA : ChatSession := ⟨1, .pub 2⟩

/-- Matched session of node bbbbbbbb for its chat with aaaaaaaa. -/
def c1SessionB : ChatSession := ⟨2, .pub 1⟩

/-- Sender state of node aaaaaaaa holding the matched session. -/
def c1StateA : MeshState :=
  ⟨emptyDb, [("bbbbbbbb", c1SessionA)], [], [], [("bbbbbbbb", "addrB")]⟩

/-- Receiver state of node bbbbbbbb holding the matched session. -/
def c1StateB : MeshState := ⟨emptyDb, [("aaaaaaaa", c1SessionB)], [], [], []⟩

/-- Randomness of the C1 send: message id m1, ephemeral scalar 3, salt 7,
nonce 9. -/
def c1Rand : Mesh.SendRand := ⟨"m1", 3, 7, 9, "fid", 0, "hs", "hsf"⟩

/-- The private envelope produced by the send path of aaaaaaaa for the
payload hi addressed to bbbbbbbb. -/
def c1Envelope : Envelope :=
  (Mesh.send_payload cfgA c1StateA "bbbbbbbb" "text" (.str "hi") none none c1Rand 100).envelope

/-- C1 (falsified by the code): the sender encrypts under the HKDF info
string built from chat_id = to = bbbbbbbb, but the receive path of
bbbbbbbb passes chat_id = from = aaaaaaaa into decrypt_private, so the
two sides derive different AEAD keys and decryption fails; the last
conjunct shows that the very same ciphertext and matched sessions do
round-trip when both sides use the same chat id, isolating the mismatch
as the only failure cause. -/
theorem claim_C1_private_roundtrip_fails :
    c1Envelope.enc = some "private" ∧
    c1Envelope.payload =
      .priv (CryptoManager.encrypt_private "pt" "bbbbbbbb" "m1" c1SessionA "m1" 3 7 9) ∧
    Mesh.decrypt_envelope cfgB c1StateB c1Envelope = none ∧
    CryptoManager.decrypt_private
      (CryptoManager.encrypt_private "pt" "bbbbbbbb" "m1" c1SessionA "m1" 3 7 9)
      "bbbbbbbb" "m1" c1SessionB "m1" = some "pt" :=
  ⟨rfl, rfl, rfl, rfl⟩

/-! ## Claim C7 -/

/-- A parsed frag frame whose total field is the non-numeric string x;
safe_json_loads produces it for the packet bytes
(kind frag, frame_id f1, idx 0, total x, data AA) in compact JSON. -/
def badFragPacket : JVal :=
  .obj [("kind", .str "frag"), ("frame_id", .str "f1"), ("idx", .num 0),
    ("total", .str "x"), ("data", .str "AA")]

/-- A parsed top-level JSON array, as safe_json_loads returns for the
packet bytes of a JSON list; the handler calls .get on it. -/
def arrPacket : JVal := .arr [.num 1]

/-- Empty fragment-reassembly state. -/
def fs0 : FragState := ⟨[], []⟩

/-- C7 (falsified by the code): the packet handler is not total on
malformed input.  A frag frame whose total field is a non-numeric string
reaches int() and raises ValueError, and a packet whose JSON top level is
an array (safe_json_loads does not check for a dict) reaches packet.get
and raises AttributeError; in both cases the claim requires a silent
return. -/
theorem claim_C7_handler_raises :
    Mesh.handle_ble_packet (fun _ => some badFragPacket) (fun s => .ok s) fs0
      "peer" "raw1" = (fs0, .raised .valueError) ∧
    Mesh.handle_ble_packet (fun _ => some arrPacket) (fun s => .ok s) fs0
      "peer" "raw2" = (fs0, .raised .attributeError) :=
  ⟨rfl, rfl⟩

/-! ## Claims C3 and C4: the no-session private send -/

/-- State of node aaaaaaaa with no private session for bbbbbbbb but a known
address for it. -/
def c3State : MeshState := ⟨emptyDb, [], [], [], [("bbbbbbbb", "addrB")]⟩

/-- Randomness of the C3/C4 send: user message id m1, handshake scalar 5
and handshake message id hs1. -/
def c3Rand : Mesh.SendRand := ⟨"m1", 3, 7, 9, "fid", 5, "hs1", "hsf"⟩

/-- The envelope that the no-session branch of _send_payload enqueues in
the outbox: tagged enc=private while the payload is still the cleartext. -/
def c3PlainEnv : Envelope :=
  ⟨"m1", "aaaaaaaa", some "bbbbbbbb", some 12, some 0, some 100, some "text",
    some "private", .plain (.str "hi"), none⟩

/-- C3 (falsified by the code): sending hi to bbbbbbbb with no session
enqueues the plaintext envelope tagged enc=private, and draining the
outbox on the hello of bbbbbbbb hands exactly that plaintext envelope to
the transport without encrypting it. -/
theorem claim_C3_private_plaintext_transmitted :
    (Mesh.flush_outbox_for cfgA
        (Mesh.send_payload cfgA c3State "bbbbbbbb" "text" (.str "hi") none none
          c3Rand 100).state
        "bbbbbbbb" (fun _ => "f2") 200).2.1
      = [("addrB", Frame.mesh c3PlainEnv)] ∧
    c3PlainEnv.enc = some "private" ∧
    c3PlainEnv.payload = .plain (.str "hi") :=
  ⟨rfl, rfl, rfl⟩

/-- C4 counterexample: when no session exists at send time, _send_payload
returns before save_message, so no messages row keyed by the envelope id
m1 exists afterwards, while the claim requires exactly one such row with
outgoing=true (the only row written belongs to the separate noise_init
bootstrap envelope hs1). -/
theorem claim_C4_counterexample :
    ((Mesh.send_payload cfgA c3State "bbbbbbbb" "text" (.str "hi") none none
        c3Rand 100).state.db.messages.filter (fun row => row.msg_id = "m1")) = [] ∧
    (Mesh.send_payload cfgA c3State "bbbbbbbb" "text" (.str "hi") none none
        c3Rand 100).envelope.msg_id = "m1" :=
  ⟨rfl, rfl⟩

/-! ## Claim C9 counterexample -/

/-- C9 counterexample: a typing notification to the specific peer
bbbbbbbb is originated with enc=none and a plaintext system payload of
kind typing, which is neither noise_init nor noise_resp. -/
theorem claim_C9_counterexample :
    (Mesh.send_typing cfgA c3State "bbbbbbbb" "bbbbbbbb" true c3Rand 50).envelope.enc
      = some "none" ∧
    (Mesh.send_typing cfgA c3State "bbbbbbbb" "bbbbbbbb" true c3Rand 50).envelope.type
      = some "system" ∧
    (Mesh.send_typing cfgA c3State "bbbbbbbb" "bbbbbbbb" true c3Rand 50).envelope.payload
      = .plain (JVal.obj [("kind", .str "typing"), ("chat_id", .str "bbbbbbbb"),
          ("typing", .boolV true)]) :=
  ⟨rfl, rfl, rfl⟩

/-! ## Claim C5 -/

instance : IsTotal (String × Int) (fun a b => b.2 ≤ a.2) :=
  ⟨fun a b => le_total b.2 a.2⟩

instance : IsTrans (String × Int) (fun a b => b.2 ≤ a.2) :=
  ⟨fun _ _ _ h1 h2 => le_trans h2 h1⟩

/-- Helper for the seen-LRU characterization: in a list that is strictly
decreasing on a key, membership in the n-prefix is membership plus having
fewer than n elements with a strictly larger key. -/
theorem mem_take_of_key_sorted {α : Type} (key : α → Int) :
    ∀ (l : List α), l.Pairwise (fun a b => key b < key a) →
      ∀ (n : Nat) (x : α),
        x ∈ l.take n ↔ x ∈ l ∧ l.countP (fun y => decide (key x < key y)) < n := by
  intro l
  induction l with
  | nil => intro _ n x; simp
  | cons a tl ih =>
      intro hp n x
      rcases List.pairwise_cons.mp hp with ⟨ha, htl⟩
      cases n with
      | zero => simp
      | succ m =>
          rw [List.take_succ_cons]
          by_cases hxa : x = a
          · subst hxa
            have hc : (x :: tl).countP (fun y => decide (key x < key y)) = 0 := by
              rw [List.countP_eq_zero]
              intro y hy
              rcases List.mem_cons.mp hy with h | h
              · subst h; simp
              · have := ha y h
                simp only [decide_eq_true_eq]
                omega
            simp [hc]
          · have hmem1 : x ∈ a :: tl.take m ↔ x ∈ tl.take m := by
              simp [List.mem_cons, hxa]
            have hmem2 : x ∈ a :: tl ↔ x ∈ tl := by
              simp [List.mem_cons, hxa]
            rw [hmem1, hmem2, ih htl m x, List.countP_cons]
            constructor
            · rintro ⟨hx, hc⟩
              have hd : decide (key x < key a) = true := decide_eq_true (ha x hx)
              refine ⟨hx, ?_⟩
              rw [hd]
              simp only [if_true]
              omega
            · rintro ⟨hx, hc⟩
              have hd : decide (key x < key a) = true := decide_eq_true (ha x hx)
              refine ⟨hx, ?_⟩
              rw [hd] at hc
              simp only [if_true] at hc
              omega

/-- C5: after every mark_seen call the seen table holds at most seenLimit
rows and, when the timestamps of the upserted table are pairwise distinct,
the survivors are exactly the rows with fewer than seenLimit strictly
newer rows, i.e. the seenLimit most recent by seen_at, evicting oldest
first. -/
theorem claim_C5_seen_lru (db : DbState) (id : String) (t : Int)
    (hdist : (Database.upsertSeen db.seen id t).Pairwise (fun a b => a.2 ≠ b.2)) :
    (Database.mark_seen db id t).seen.length ≤ db.seenLimit ∧
    ∀ x, x ∈ (Database.mark_seen db id t).seen ↔
      x ∈ Database.upsertSeen db.seen id t ∧
      (Database.upsertSeen db.seen id t).countP (fun y => decide (x.2 < y.2))
        < db.seenLimit := by
  have hseen : (Database.mark_seen db id t).seen
      = (List.insertionSort (fun a b => b.2 ≤ a.2)
          (Database.upsertSeen db.seen id t)).take db.seenLimit := rfl
  have hperm : List.Perm
      (List.insertionSort (fun a b : String × Int => b.2 ≤ a.2)
        (Database.upsertSeen db.seen id t))
      (Database.upsertSeen db.seen id t) :=
    List.perm_insertionSort _ _
  have hsorted := List.sorted_insertionSort (fun a b : String × Int => b.2 ≤ a.2)
    (Database.upsertSeen db.seen id t)
  have hne : (List.insertionSort (fun a b : String × Int => b.2 ≤ a.2)
      (Database.upsertSeen db.seen id t)).Pairwise (fun a b => a.2 ≠ b.2) :=
    hdist.perm hperm.symm (fun h => h.symm)
  have hstrict : (List.insertionSort (fun a b : String × Int => b.2 ≤ a.2)
      (Database.upsertSeen db.seen id t)).Pairwise (fun a b => b.2 < a.2) :=
    (hsorted.and hne).imp (fun h => lt_of_le_of_ne h.1 (Ne.symm h.2))
  constructor
  · rw [hseen]
    exact List.length_take_le _ _
  · intro x
    rw [hseen, mem_take_of_key_sorted (fun p => p.2) _ hstrict db.seenLimit x,
      hperm.mem_iff, hperm.countP_eq]

/-- Seen table with three entries at capacity three, for the C5 witness. -/
def c5Db : DbState :=
  { emptyDb with seen := [("m1", 1), ("m2", 2), ("m3", 3)], seenLimit := 3 }

/-- Witness for C5: marking m4 at capacity 3 keeps the table at three rows
characterized as the three newest, and evaluating has_seen confirms that
m1 was evicted while m2, m3 and m4 survive. -/
theorem claim_C5_witness :
    ((Database.mark_seen c5Db "m4" 4).seen.length ≤ c5Db.seenLimit ∧
      ∀ x, x ∈ (Database.mark_seen c5Db "m4" 4).seen ↔
        x ∈ Database.upsertSeen c5Db.seen "m4" 4 ∧
        (Database.upsertSeen c5Db.seen "m4" 4).countP (fun y => decide (x.2 < y.2))
          < c5Db.seenLimit) ∧
    Database.has_seen (Database.mark_seen c5Db "m4" 4) "m1" = false ∧
    Database.has_seen (Database.mark_seen c5Db "m4" 4) "m2" = true ∧
    Database.has_seen (Database.mark_seen c5Db "m4" 4) "m3" = true ∧
    Database.has_seen (Database.mark_seen c5Db "m4" 4) "m4" = true :=
  ⟨claim_C5_seen_lru c5Db "m4" 4 (by decide), rfl, rfl, rfl, rfl⟩

/-! ## Claim C8 -/

instance : IsTotal OutboxRow (fun a b => a.id ≤ b.id) :=
  ⟨fun a b => Nat.le_total a.id b.id⟩

instance : IsTrans OutboxRow (fun a b => a.id ≤ b.id) :=
  ⟨fun _ _ _ h1 h2 => Nat.le_trans h1 h2⟩

/-- Structural effect of _send_frame: every transmitted packet carries the
given frame, and either the frame was dispatched with the state unchanged,
or it was not and the envelope was enqueued in the outbox. -/
theorem send_frame_spec (cfg : Cfg) (s : MeshState) (fr : Frame) (env : Envelope)
    (exclude : Option String) (now : Int) :
    (∀ p ∈ (Mesh.send_frame cfg s fr env exclude now).2.1, p.2 = fr) ∧
    (((Mesh.send_frame cfg s fr env exclude now).2.2 = true ∧
        (Mesh.send_frame cfg s fr env exclude now).1 = s) ∨
      ((Mesh.send_frame cfg s fr env exclude now).2.2 = false ∧
        (Mesh.send_frame cfg s fr env exclude now).1
          = { s with db := Database.enqueue_outbox s.db env.toId env now })) := by
  unfold Mesh.send_frame
  split
  · dsimp only
    split
    · split
      · exact ⟨by intro p hp; simp at hp; simp [hp], Or.inl ⟨rfl, rfl⟩⟩
      · exact ⟨by intro p hp; simp at hp, Or.inr ⟨rfl, rfl⟩⟩
    · exact ⟨by intro p hp; simp at hp, Or.inr ⟨rfl, rfl⟩⟩
  · split
    · refine ⟨?_, Or.inl ⟨rfl, rfl⟩⟩
      intro p hp
      simp only [List.mem_map] at hp
      obtain ⟨a, _, ha⟩ := hp
      simp [← ha]
    · refine ⟨?_, Or.inl ⟨rfl, rfl⟩⟩
      intro p hp
      simp only [List.mem_map] at hp
      obtain ⟨a, _, ha⟩ := hp
      simp [← ha]

/-- Structural effect of the per-envelope frame loop of _send_envelope_raw:
the store changes only by appending outbox rows that carry this envelope
under fresh ids, and a false dispatch flag guarantees at least one such
row; every transmitted packet carries one of the given frames. -/
theorem send_frames_spec (cfg : Cfg) (env : Envelope) (exclude : Option String)
    (now : Int) :
    ∀ (frames : List Frame) (s : MeshState),
      ∃ (extra : List OutboxRow) (nid : Nat),
        (Mesh.send_frames cfg s env exclude now frames).1
          = { s with db := { s.db with
              outbox := s.db.outbox ++ extra, outboxNextId := nid } } ∧
        s.db.outboxNextId ≤ nid ∧
        (∀ r2 ∈ extra, r2.envelope = env ∧ s.db.outboxNextId ≤ r2.id ∧ r2.id < nid) ∧
        ((Mesh.send_frames cfg s env exclude now frames).2.2 = false → extra ≠ []) ∧
        (∀ p ∈ (Mesh.send_frames cfg s env exclude now frames).2.1, p.2 ∈ frames) := by
  intro frames
  induction frames with
  | nil =>
      intro s
      refine ⟨[], s.db.outboxNextId, ?_, le_refl _, ?_, ?_, ?_⟩ <;>
        simp [Mesh.send_frames]
  | cons fr rest ih =>
      intro s
      have hdef : Mesh.send_frames cfg s env exclude now (fr :: rest)
          = ((Mesh.send_frames cfg (Mesh.send_frame cfg s fr env exclude now).1 env
                exclude now rest).1,
             (Mesh.send_frame cfg s fr env exclude now).2.1 ++
              (Mesh.send_frames cfg (Mesh.send_frame cfg s fr env exclude now).1 env
                exclude now rest).2.1,
             (Mesh.send_frame cfg s fr env exclude now).2.2 &&
              (Mesh.send_frames cfg (Mesh.send_frame cfg s fr env exclude now).1 env
                exclude now rest).2.2) := rfl
      rw [hdef]
      obtain ⟨hsent1, hor⟩ := send_frame_spec cfg s fr env exclude now
      rcases hor with ⟨hok1, hs1⟩ | ⟨hok1, hs1⟩
      · rw [hs1, hok1]
        obtain ⟨extra2, nid2, h2state, h2le, h2ex, h2ok, h2sent⟩ := ih s
        refine ⟨extra2, nid2, h2state, h2le, h2ex, ?_, ?_⟩
        · intro hfalse
          exact h2ok (by simpa using hfalse)
        · intro p hp
          rcases List.mem_append.mp hp with h | h
          · simp [hsent1 p h]
          · exact List.mem_cons_of_mem _ (h2sent p h)
      · rw [hs1, hok1]
        obtain ⟨extra2, nid2, h2state, h2le, h2ex, h2ok, h2sent⟩ :=
          ih ({ s with db := Database.enqueue_outbox s.db env.toId env now })
        refine ⟨⟨s.db.outboxNextId, env.toId, env, now⟩ :: extra2, nid2, ?_, ?_, ?_, ?_, ?_⟩
        · exact h2state.trans (by
            simp [Database.enqueue_outbox, List.append_assoc])
        · have : s.db.outboxNextId + 1 ≤ nid2 := by
            simpa [Database.enqueue_outbox] using h2le
          omega
        · intro r2 hr2
          rcases List.mem_cons.mp hr2 with h | h
          · subst h
            have : s.db.outboxNextId + 1 ≤ nid2 := by
              simpa [Database.enqueue_outbox] using h2le
            exact ⟨rfl, le_refl _, by dsimp only; omega⟩
          · obtain ⟨he, hge, hlt⟩ := h2ex r2 h
            have hge2 : s.db.outboxNextId + 1 ≤ r2.id := by
              simpa [Database.enqueue_outbox] using hge
            exact ⟨he, by omega, hlt⟩
        · intro _
          simp
        · intro p hp
          rcases List.mem_append.mp hp with h | h
          · simp [hsent1 p h]
          · exact List.mem_cons_of_mem _ (h2sent p h)

/-- Structural effect of _send_envelope_raw, combining the direct and the
fragmenting branch: the store changes only by appended outbox rows for
this envelope, a false dispatch flag guarantees such a row, and every
transmitted packet is the mesh frame of this envelope or one of its
fragments under the drawn frame id. -/
theorem send_envelope_raw_spec (cfg : Cfg) (s : MeshState) (env : Envelope)
    (exclude : Option String) (now : Int) (fid : String) :
    ∃ (extra : List OutboxRow) (nid : Nat),
      (Mesh.send_envelope_raw cfg s env exclude now fid).1
        = { s with db := { s.db with
            outbox := s.db.outbox ++ extra, outboxNextId := nid } } ∧
      s.db.outboxNextId ≤ nid ∧
      (∀ r2 ∈ extra, r2.envelope = env ∧ s.db.outboxNextId ≤ r2.id ∧ r2.id < nid) ∧
      ((Mesh.send_envelope_raw cfg s env exclude now fid).2.2 = false → extra ≠ []) ∧
      (∀ p ∈ (Mesh.send_envelope_raw cfg s env exclude now fid).2.1,
        p.2 = Frame.mesh env ∨ ∃ i t d, p.2 = Frame.frag fid i t d) := by
  by_cases hlen : (cfg.serFrame (Frame.mesh env)).length ≤ cfg.packetSizeLimit
  · simp only [Mesh.send_envelope_raw, if_pos hlen]
    obtain ⟨hsent, hor⟩ := send_frame_spec cfg s (Frame.mesh env) env exclude now
    rcases hor with ⟨hok, hs⟩ | ⟨hok, hs⟩
    · refine ⟨[], s.db.outboxNextId, ?_, le_refl _, by simp, ?_, ?_⟩
      · rw [hs]; simp
      · rw [hok]; simp
      · intro p hp
        exact Or.inl (hsent p hp)
    · refine ⟨[⟨s.db.outboxNextId, env.toId, env, now⟩], s.db.outboxNextId + 1,
        ?_, ?_, ?_, ?_, ?_⟩
      · rw [hs]; simp [Database.enqueue_outbox]
      · omega
      · intro r2 hr2
        simp only [List.mem_singleton] at hr2
        subst hr2
        exact ⟨rfl, le_refl _, by dsimp only; omega⟩
      · intro _; simp
      · intro p hp
        exact Or.inl (hsent p hp)
  · simp only [Mesh.send_envelope_raw, if_neg hlen]
    obtain ⟨extra, nid, h1, h2, h3, h4, h5⟩ := send_frames_spec cfg env exclude now _ s
    refine ⟨extra, nid, h1, h2, h3, h4, ?_⟩
    intro p hp
    have hm := h5 p hp
    simp only [List.mem_map] at hm
    obtain ⟨q, hq, hfr⟩ := hm
    exact Or.inr ⟨q.1, _, q.2, hfr.symm⟩

/-- Structural effect of the _flush_outbox_for resend loop: the collected
delete ids are exactly the dequeued row ids, the outbox only grows, and
every dequeued row whose resend failed leaves a fresh outbox row carrying
its envelope. -/
theorem flush_loop_spec (cfg : Cfg) (fids : Nat → String) (now : Int) :
    ∀ (rows : List OutboxRow) (s : MeshState) (i : Nat),
      (Mesh.flush_loop cfg s fids i now rows).2.2.1 = rows.map (fun r => r.id) ∧
      s.db.outboxNextId ≤ (Mesh.flush_loop cfg s fids i now rows).1.db.outboxNextId ∧
      (∃ grown : List OutboxRow,
        (Mesh.flush_loop cfg s fids i now rows).1.db.outbox = s.db.outbox ++ grown) ∧
      (∀ row ok, (row, ok) ∈ (Mesh.flush_loop cfg s fids i now rows).2.2.2 →
        ok = false →
        ∃ r2 ∈ (Mesh.flush_loop cfg s fids i now rows).1.db.outbox,
          r2.envelope = row.envelope ∧ s.db.outboxNextId ≤ r2.id) := by
  intro rows
  induction rows with
  | nil =>
      intro s i
      refine ⟨rfl, le_refl _, ⟨[], by simp [Mesh.flush_loop]⟩, ?_⟩
      intro row ok h
      simp [Mesh.flush_loop] at h
  | cons row rest ih =>
      intro s i
      have hdef : Mesh.flush_loop cfg s fids i now (row :: rest)
          = ((Mesh.flush_loop cfg
                (Mesh.send_envelope_raw cfg s row.envelope none now (fids i)).1
                fids (i + 1) now rest).1,
             (Mesh.send_envelope_raw cfg s row.envelope none now (fids i)).2.1 ++
              (Mesh.flush_loop cfg
                (Mesh.send_envelope_raw cfg s row.envelope none now (fids i)).1
                fids (i + 1) now rest).2.1,
             row.id :: (Mesh.flush_loop cfg
                (Mesh.send_envelope_raw cfg s row.envelope none now (fids i)).1
                fids (i + 1) now rest).2.2.1,
             (row, (Mesh.send_envelope_raw cfg s row.envelope none now (fids i)).2.2) ::
              (Mesh.flush_loop cfg
                (Mesh.send_envelope_raw cfg s row.envelope none now (fids i)).1
                fids (i + 1) now rest).2.2.2) := rfl
      rw [hdef]
      obtain ⟨extra1, nid1, hst1, hle1, hex1, hok1, _⟩ :=
        send_envelope_raw_spec cfg s row.envelope none now (fids i)
      obtain ⟨hids2, hle2, ⟨grown2, hgrow2⟩, hfail2⟩ :=
        ih (Mesh.send_envelope_raw cfg s row.envelope none now (fids i)).1 (i + 1)
      have hproj_nid :
          (Mesh.send_envelope_raw cfg s row.envelope none now (fids i)).1.db.outboxNextId
            = nid1 := by rw [hst1]
      have hproj_out :
          (Mesh.send_envelope_raw cfg s row.envelope none now (fids i)).1.db.outbox
            = s.db.outbox ++ extra1 := by rw [hst1]
      refine ⟨by rw [hids2]; rfl, ?_, ?_, ?_⟩
      · rw [hproj_nid] at hle2
        exact le_trans hle1 hle2
      · refine ⟨extra1 ++ grown2, ?_⟩
        rw [hgrow2, hproj_out, List.append_assoc]
      · intro row2 ok2 hmem hok2
        rcases List.mem_cons.mp hmem with h | h
        · injection h with h1 h2
          subst h1
          have hne : extra1 ≠ [] := hok1 (h2.symm.trans hok2)
          obtain ⟨e, he⟩ := List.exists_mem_of_ne_nil extra1 hne
          obtain ⟨heenv, henid, _⟩ := hex1 e he
          refine ⟨e, ?_, heenv, henid⟩
          rw [hgrow2, hproj_out]
          exact List.mem_append_left _ (List.mem_append_right _ he)
        · obtain ⟨r2, hr2mem, hr2env, hr2id⟩ := hfail2 row2 ok2 h hok2
          refine ⟨r2, hr2mem, hr2env, ?_⟩
          rw [hproj_nid] at hr2id
          exact le_trans hle1 hr2id

/-- Rows returned by dequeue_outbox_for are rows of the outbox addressed to
the requested recipient. -/
theorem dequeue_mem (db : DbState) (X : String) (limit : Nat) :
    ∀ r ∈ Database.dequeue_outbox_for db X limit,
      r ∈ db.outbox ∧ r.recipient = some X := by
  intro r hr
  unfold Database.dequeue_outbox_for at hr
  have hr2 := List.mem_of_mem_take hr
  have hr3 := (List.perm_insertionSort
    (fun a b : OutboxRow => a.id ≤ b.id) _).mem_iff.mp hr2
  have hr4 := List.mem_filter.mp hr3
  exact ⟨hr4.1, by simpa using hr4.2⟩

/-- C8: outbox draining on an inbound hello dequeues at most 100 rows, all
addressed to the hello sender and ordered by ascending insert id, and
every dequeued row whose resend failed still has an outbox row carrying
its envelope after the drain (the source deletes every dequeued row id but
re-enqueues failed envelopes under fresh ids during the resend itself). -/
theorem claim_C8_outbox_drain (cfg : Cfg) (s : MeshState) (X : String)
    (fids : Nat → String) (now : Int)
    (hwf : ∀ r ∈ s.db.outbox, r.id < s.db.outboxNextId) :
    (Database.dequeue_outbox_for s.db X 100).length ≤ 100 ∧
    (∀ r ∈ Database.dequeue_outbox_for s.db X 100, r.recipient = some X) ∧
    (Database.dequeue_outbox_for s.db X 100).Pairwise (fun a b => a.id ≤ b.id) ∧
    (∀ row ok, (row, ok) ∈ (Mesh.flush_outbox_for cfg s X fids now).2.2 →
      ok = false →
      ∃ r2 ∈ (Mesh.flush_outbox_for cfg s X fids now).1.db.outbox,
        r2.envelope = row.envelope) := by
  refine ⟨List.length_take_le _ _, ?_, ?_, ?_⟩
  · intro r hr
    exact (dequeue_mem s.db X 100 r hr).2
  · exact (List.sorted_insertionSort (fun a b : OutboxRow => a.id ≤ b.id)
      (s.db.outbox.filter (fun r => r.recipient = some X))).sublist
      (List.take_sublist _ _)
  · intro row ok hmem hok
    unfold Mesh.flush_outbox_for at hmem ⊢
    by_cases hemp : (Database.dequeue_outbox_for s.db X 100).isEmpty
    · rw [if_pos hemp] at hmem
      simp at hmem
    · rw [if_neg hemp] at hmem ⊢
      obtain ⟨hids, _, _, hfail⟩ :=
        flush_loop_spec cfg fids now (Database.dequeue_outbox_for s.db X 100) s 0
      obtain ⟨r2, hr2mem, hr2env, hr2id⟩ := hfail row ok hmem hok
      refine ⟨r2, ?_, hr2env⟩
      dsimp only
      rw [hids]
      unfold Database.delete_outbox_ids
      dsimp only
      rw [List.mem_filter]
      refine ⟨hr2mem, ?_⟩
      simp only [decide_eq_true_eq, List.mem_map, not_exists]
      intro p
      rintro ⟨hpmem, hpid⟩
      have hplt := hwf p (dequeue_mem s.db X 100 p hpmem).1
      omega

/-! ## Claim C4 (amended) -/

/-- The framing layer never touches the messages table. -/
theorem send_envelope_raw_messages (cfg : Cfg) (s : MeshState) (env : Envelope)
    (exclude : Option String) (now : Int) (fid : String) :
    (Mesh.send_envelope_raw cfg s env exclude now fid).1.db.messages
      = s.db.messages := by
  obtain ⟨extra, nid, hst, _, _, _, _⟩ := send_envelope_raw_spec cfg s env exclude now fid
  rw [hst]

/-- Messages written by an encrypted=False send: the upserted row keyed by
the fresh message id, flagged outgoing. -/
theorem send_plain_messages (cfg : Cfg) (s : MeshState) (toN msgType : String)
    (payload : JVal) (replyTo : Option String) (msgId : String) (now : Int)
    (fid : String) :
    ∃ row : MsgRow,
      (Mesh.send_plain cfg s toN msgType payload replyTo msgId now fid).1.db.messages
        = s.db.messages.filter (fun r2 => r2.msg_id ≠ msgId) ++ [row] ∧
      row.msg_id = msgId ∧ row.outgoing = true := by
  unfold Mesh.send_plain
  dsimp only
  rw [send_envelope_raw_messages]
  exact ⟨_, rfl, rfl, rfl⟩

/-- Filtering an upserted messages table for the upserted id returns
exactly the new row. -/
theorem filter_upsert_eq (l : List MsgRow) (msgId : String) (row : MsgRow)
    (h : row.msg_id = msgId) :
    (l.filter (fun r2 => r2.msg_id ≠ msgId) ++ [row]).filter
      (fun r2 => r2.msg_id = msgId) = [row] := by
  rw [List.filter_append]
  have h1 : (l.filter (fun r2 => r2.msg_id ≠ msgId)).filter
      (fun r2 => r2.msg_id = msgId) = [] := by
    rw [List.filter_eq_nil_iff]
    intro a ha
    have h2 := (List.mem_filter.mp ha).2
    simp only [decide_eq_true_eq] at h2 ⊢
    exact h2
  rw [h1]
  simp [h]

/-- Filtering for a fresh id after an upsert under a different id returns
nothing. -/
theorem filter_upsert_ne (l : List MsgRow) (msgId other : String) (row : MsgRow)
    (hfresh : ∀ r2 ∈ l, r2.msg_id ≠ msgId) (hrow : row.msg_id ≠ msgId) :
    (l.filter (fun r2 => r2.msg_id ≠ other) ++ [row]).filter
      (fun r2 => r2.msg_id = msgId) = [] := by
  rw [List.filter_append, List.filter_eq_nil_iff.mpr, List.filter_eq_nil_iff.mpr,
    List.append_nil]
  · intro a ha
    simp only [List.mem_singleton] at ha
    subst ha
    simp only [decide_eq_true_eq]
    exact hrow
  · intro a ha
    have h2 := (List.mem_filter.mp ha).1
    simp only [decide_eq_true_eq]
    exact hfresh a h2

/-- Configuration used by the echo conjunct of C4: the abstract serializer
and parser are coherent on the one payload exercised. -/
def c4Cfg : Cfg :=
  { cfgA with
    serJ := (fun _ => "pt"),
    parseJ := (fun _ => some (.obj [("text", .str "hi")])) }

/-- The outgoing messages row node aaaaaaaa wrote when it sent broadcast
m9. -/
def c4Row : MsgRow :=
  ⟨"m9", "broadcast", "aaaaaaaa", some "*", some "text",
    .plain (.obj [("text", .str "hi")]), some 25, none, true⟩

/-- State of node aaaaaaaa after sending broadcast m9 (its own row is
present with outgoing=true and m9 was never marked seen). -/
def c4State : MeshState := ⟨{ emptyDb with messages := [c4Row] }, [], [], [], []⟩

/-- The broadcast envelope m9 as it arrives back at aaaaaaaa over the
mesh. -/
def c4Env : Envelope :=
  ⟨"m9", "aaaaaaaa", some "*", some 2, some 0, some 25, some "text",
    some "group", .group (CryptoManager.encrypt_group "pass" "pt" "m9" 9), none⟩


/-- C4 (amended): when no private session exists at send time the send
path writes no messages row for the envelope (first conjunct; the only
row written belongs to the bootstrap noise_init envelope); when the
payload is actually encrypted and sent (enc=none, enc=group, or
enc=private with a session) exactly one messages row keyed by the fresh
msg_id is written and it is flagged outgoing (second conjunct); and the
outgoing flag need not survive: a copy of the node own broadcast envelope
arriving back over the mesh is saved again with outgoing=false,
overwriting the row (third conjunct, on a concrete state). -/
theorem claim_C4_amended :
    (∀ (cfg : Cfg) (s : MeshState) (toN msgType : String) (payload : JVal)
        (replyTo : Option String) (encrypted : Option Bool) (r : Mesh.SendRand)
        (now : Int),
      toN ≠ "*" → encrypted ≠ some false → alookup s.chatSessions toN = none →
      (∀ row ∈ s.db.messages, row.msg_id ≠ r.msgId) → r.hsMsgId ≠ r.msgId →
      ((Mesh.send_payload cfg s toN msgType payload replyTo encrypted r
          now).state.db.messages.filter (fun row => row.msg_id = r.msgId)) = []) ∧
    (∀ (cfg : Cfg) (s : MeshState) (toN msgType : String) (payload : JVal)
        (replyTo : Option String) (encrypted : Option Bool) (r : Mesh.SendRand)
        (now : Int),
      (encrypted = some false ∨ toN = "*" ∨
        (alookup s.chatSessions toN).isSome = true) →
      ∃ row : MsgRow,
        ((Mesh.send_payload cfg s toN msgType payload replyTo encrypted r
            now).state.db.messages.filter (fun r2 => r2.msg_id = r.msgId)) = [row] ∧
        row.outgoing = true) ∧
    ((Mesh.process_envelope c4Cfg c4State c4Env (some "addrB") 30
        inertProcRand).1.db.messages.map (fun row => (row.msg_id, row.outgoing)))
      = [("m9", false)] := by
  refine ⟨?_, ?_, ?_⟩
  · intro cfg s toN msgType payload replyTo encrypted r now hb henc hno hfresh hhs
    have hse : encrypted.getD true = true := by
      cases encrypted with
      | none => rfl
      | some b =>
          cases b with
          | false => exact absurd rfl henc
          | true => rfl
    obtain ⟨row0, hmsgs, hrowid, hrowout⟩ := send_plain_messages cfg
      { s with pendingNoise := aset s.pendingNoise toN r.hsPriv } toN "system"
      (JVal.obj [("kind", .str "noise_init"),
        ("pub", .str (encodePub (PubKey.pub r.hsPriv)))])
      none r.hsMsgId now r.hsFrameId
    have hred : (Mesh.send_payload cfg s toN msgType payload replyTo encrypted r
        now).state.db.messages
        = (Mesh.send_plain cfg
            { s with pendingNoise := aset s.pendingNoise toN r.hsPriv } toN "system"
            (JVal.obj [("kind", .str "noise_init"),
              ("pub", .str (encodePub (PubKey.pub r.hsPriv)))])
            none r.hsMsgId now r.hsFrameId).1.db.messages := by
      simp only [Mesh.send_payload, hse, hb, hno, Mesh.start_private_chat]
      simp only [not_true, if_false, ite_false]
      rfl
    rw [hred, hmsgs]
    exact filter_upsert_ne _ _ _ _ hfresh (by rw [hrowid]; exact hhs)
  · intro cfg s toN msgType payload replyTo encrypted r now hcases
    cases hb : encrypted.getD true with
    | false =>
        have hred : (Mesh.send_payload cfg s toN msgType payload replyTo encrypted
            r now).state.db.messages
            = (Mesh.saveOutgoing s
                ({ msg_id := r.msgId, sender := cfg.nodeId, toId := some toN,
                   ttl := some cfg.defaultTtl, hop := some 0,
                   timestamp := some now, type := some msgType,
                   enc := some "none", payload := .plain payload,
                   reply_to := replyTo }) toN payload).db.messages := by
          simp only [Mesh.send_payload, hb]
          simp only [not_false_iff, if_true, Bool.false_eq_true]
          rw [send_envelope_raw_messages]
        rw [hred]
        simp only [Mesh.saveOutgoing, Database.save_message]
        dsimp only
        exact ⟨_, filter_upsert_eq _ _ _ rfl, rfl⟩
    | true =>
        by_cases htN : toN = "*"
        · have hred : (Mesh.send_payload cfg s toN msgType payload replyTo
              encrypted r now).state.db.messages
              = (Mesh.saveOutgoing s
                  ({ msg_id := r.msgId, sender := cfg.nodeId, toId := some toN,
                     ttl := some cfg.defaultTtl, hop := some 0,
                     timestamp := some now, type := some msgType,
                     enc := some "group",
                     payload := .group (CryptoManager.encrypt_group cfg.passphrase
                       (cfg.serJ (Mesh.normalizePayload payload)) r.msgId r.nonce),
                     reply_to := replyTo }) toN payload).db.messages := by
            simp only [Mesh.send_payload, hb, htN]
            simp only [not_true, ite_false, if_true, ite_true, Bool.true_eq_false]
            rw [send_envelope_raw_messages]
          rw [hred]
          simp only [Mesh.saveOutgoing, Database.save_message]
          dsimp only
          exact ⟨_, filter_upsert_eq _ _ _ rfl, rfl⟩
        · have hsess : (alookup s.chatSessions toN).isSome = true := by
            rcases hcases with henc | ht | hs
            · rw [henc] at hb; simp at hb
            · exact absurd ht htN
            · exact hs
          obtain ⟨sess, hsess2⟩ := Option.isSome_iff_exists.mp hsess
          have hred : (Mesh.send_payload cfg s toN msgType payload replyTo
              encrypted r now).state.db.messages
              = (Mesh.saveOutgoing s
                  ({ msg_id := r.msgId, sender := cfg.nodeId, toId := some toN,
                     ttl := some cfg.defaultTtl, hop := some 0,
                     timestamp := some now, type := some msgType,
                     enc := some "private",
                     payload := .priv (CryptoManager.encrypt_private
                       (cfg.serJ (Mesh.normalizePayload payload)) toN r.msgId sess
                       r.msgId r.ephPriv r.salt r.nonce),
                     reply_to := replyTo }) toN payload).db.messages := by
            simp only [Mesh.send_payload, hb, htN, hsess2]
            simp only [not_true, ite_false, if_false, Bool.true_eq_false]
            rw [send_envelope_raw_messages]
          rw [hred]
          simp only [Mesh.saveOutgoing, Database.save_message]
          dsimp only
          exact ⟨_, filter_upsert_eq _ _ _ rfl, rfl⟩
  · rfl

/-! ## Claim C9 (amended) -/

namespace Mesh

/-- The system sub-kind of a plaintext payload, none for encrypted or
non-dict payloads. -/
def plainKind (env : Envelope) : Option String :=
  match env.payload with
  | .plain p =>
      match jGet p "kind" with
      | some (.str k) => some k
      | _ => none
  | _ => none

end Mesh

/-- Envelopes originated by a default-encryption send (send_text,
send_reaction, send_file chunks): the primary envelope is never plaintext,
and the only plaintext envelope the call can build is the noise_init
bootstrap of the no-session branch. -/
theorem send_payload_default_no_plain (cfg : Cfg) (s : MeshState) (toN msgType : String)
    (payload : JVal) (replyTo : Option String) (r : Mesh.SendRand) (now : Int) :
    ∀ env2 ∈ (Mesh.send_payload cfg s toN msgType payload replyTo none r now).originated,
      env2.enc = some "none" → Mesh.plainKind env2 = some "noise_init" := by
  intro env2 hmem henc
  by_cases ht : toN = "*"
  · have horig : (Mesh.send_payload cfg s toN msgType payload replyTo none r
        now).originated
        = [{ msg_id := r.msgId, sender := cfg.nodeId, toId := some toN,
             ttl := some cfg.defaultTtl, hop := some 0, timestamp := some now,
             type := some msgType, enc := some "group",
             payload := .group (CryptoManager.encrypt_group cfg.passphrase
               (cfg.serJ (Mesh.normalizePayload payload)) r.msgId r.nonce),
             reply_to := replyTo }] := by
      simp only [Mesh.send_payload, ht]
      rfl
    rw [horig] at hmem
    rw [List.mem_singleton] at hmem
    subst hmem
    simp at henc
  · rcases hsess : alookup s.chatSessions toN with _ | sess
    · have horig : (Mesh.send_payload cfg s toN msgType payload replyTo none r
          now).originated
          = [{ msg_id := r.msgId, sender := cfg.nodeId, toId := some toN,
               ttl := some cfg.defaultTtl, hop := some 0, timestamp := some now,
               type := some msgType, enc := some "private",
               payload := .plain payload, reply_to := replyTo },
             { msg_id := r.hsMsgId, sender := cfg.nodeId, toId := some toN,
               ttl := some cfg.defaultTtl, hop := some 0, timestamp := some now,
               type := some "system", enc := some "none",
               payload := .plain (JVal.obj [("kind", .str "noise_init"),
                 ("pub", .str (encodePub (PubKey.pub r.hsPriv)))]),
               reply_to := none }] := by
        simp only [Mesh.send_payload, if_neg ht, hsess, Mesh.start_private_chat]
        rfl
      rw [horig] at hmem
      rcases List.mem_cons.mp hmem with h | h
      · subst h
        simp at henc
      · rw [List.mem_singleton] at h
        subst h
        rfl
    · have horig : (Mesh.send_payload cfg s toN msgType payload replyTo none r
          now).originated
          = [{ msg_id := r.msgId, sender := cfg.nodeId, toId := some toN,
               ttl := some cfg.defaultTtl, hop := some 0, timestamp := some now,
               type := some msgType, enc := some "private",
               payload := .priv (CryptoManager.encrypt_private
                 (cfg.serJ (Mesh.normalizePayload payload)) toN r.msgId sess
                 r.msgId r.ephPriv r.salt r.nonce),
               reply_to := replyTo }] := by
        simp only [Mesh.send_payload, if_neg ht, hsess]
        rfl
      rw [horig] at hmem
      rw [List.mem_singleton] at hmem
      subst hmem
      simp at henc

/-- Every mesh frame transmitted by the noise_init handler carries its
plaintext noise_resp answer. -/
theorem on_noise_init_mesh_frames (cfg : Cfg) (s : MeshState) (env : Envelope)
    (respPriv : Nat) (respMsgId : String) (now : Int) (respFrameId : String) :
    ∀ a e, (a, Frame.mesh e) ∈ (Mesh.on_noise_init cfg s env respPriv respMsgId now
        respFrameId).2 →
      e.enc = some "none" ∧ Mesh.plainKind e = some "noise_resp" := by
  intro a e hmem
  unfold Mesh.on_noise_init at hmem
  split at hmem
  · split at hmem
    · split at hmem
      · simp at hmem
      · unfold Mesh.send_plain at hmem
        dsimp only at hmem
        obtain ⟨extra, nid, _, _, _, _, hsent⟩ := send_envelope_raw_spec cfg _ _ none now respFrameId
        have hfr := hsent (a, Frame.mesh e) hmem
        dsimp only at hfr
        rcases hfr with hfr | ⟨i, t, d, hfr⟩
        · injection hfr with hfr2
          subst hfr2
          exact ⟨rfl, rfl⟩
        · exact absurd hfr (by intro h; cases h)
    · simp at hmem
  · simp at hmem

/-- C9 (amended): the node originates enc=none envelopes only for the
handshake bootstrap and for typing notifications to a specific peer.
Texts, reactions and file chunks can build a plaintext envelope only as
the noise_init bootstrap of the no-session branch; a direct (non
broadcast) typing notification is itself sent in plaintext; the hello
beacon is never plaintext; start_private_chat originates the plaintext
noise_init; and the noise_init handler answers with the plaintext
noise_resp. -/
theorem claim_C9_amended :
    (∀ (cfg : Cfg) (s : MeshState) (toN text : String) (replyTo : Option String)
        (r : Mesh.SendRand) (now : Int),
      ∀ env2 ∈ (Mesh.send_text cfg s toN text replyTo r now).originated,
        env2.enc = some "none" → Mesh.plainKind env2 = some "noise_init") ∧
    (∀ (cfg : Cfg) (s : MeshState) (toN msgId reaction : String)
        (r : Mesh.SendRand) (now : Int),
      ∀ env2 ∈ (Mesh.send_reaction cfg s toN msgId reaction r now).originated,
        env2.enc = some "none" → Mesh.plainKind env2 = some "noise_init") ∧
    (∀ (cfg : Cfg) (s : MeshState) (toN : String) (asImage : Bool) (part : JVal)
        (r : Mesh.SendRand) (now : Int),
      ∀ env2 ∈ (Mesh.send_file_part cfg s toN asImage part r now).originated,
        env2.enc = some "none" → Mesh.plainKind env2 = some "noise_init") ∧
    (∀ (cfg : Cfg) (s : MeshState) (chatId toN : String) (flag : Bool)
        (r : Mesh.SendRand) (now : Int),
      ∀ env2 ∈ (Mesh.send_typing cfg s chatId toN flag r now).originated,
        env2.enc = some "none" →
          Mesh.plainKind env2 = some "typing" ∧ env2.toId ≠ some "*") ∧
    (∀ (cfg : Cfg) (s : MeshState) (r : Mesh.SendRand) (now : Int),
      ∀ env2 ∈ (Mesh.hello_beacon cfg s r now).originated,
        env2.enc ≠ some "none") ∧
    (∀ (cfg : Cfg) (s : MeshState) (peer : String) (initPriv : Nat) (msgId : String)
        (now : Int) (fid : String),
      (Mesh.start_private_chat cfg s peer initPriv msgId now fid).2.2.enc
          = some "none" ∧
      Mesh.plainKind (Mesh.start_private_chat cfg s peer initPriv msgId now fid).2.2
          = some "noise_init") ∧
    (∀ (cfg : Cfg) (s : MeshState) (env : Envelope) (respPriv : Nat)
        (respMsgId : String) (now : Int) (respFrameId : String) (a : String)
        (e : Envelope),
      (a, Frame.mesh e) ∈ (Mesh.on_noise_init cfg s env respPriv respMsgId now
        respFrameId).2 →
      e.enc = some "none" ∧ Mesh.plainKind e = some "noise_resp") := by
  refine ⟨?_, ?_, ?_, ?_, ?_, ?_, ?_⟩
  · intro cfg s toN text replyTo r now
    exact send_payload_default_no_plain cfg s toN "text" (.str text) replyTo r now
  · intro cfg s toN msgId reaction r now
    exact send_payload_default_no_plain cfg s toN "system"
      (JVal.obj [("kind", .str "reaction"), ("reaction", .str reaction)])
      (some msgId) r now
  · intro cfg s toN asImage part r now
    exact send_payload_default_no_plain cfg s toN
      (if asImage then "image" else "file") part none r now
  · intro cfg s chatId toN flag r now env2 hmem henc
    by_cases ht : toN = "*"
    · have horig : (Mesh.send_typing cfg s chatId toN flag r now).originated
          = [{ msg_id := r.msgId, sender := cfg.nodeId, toId := some toN,
               ttl := some cfg.defaultTtl, hop := some 0, timestamp := some now,
               type := some "system", enc := some "group",
               payload := .group (CryptoManager.encrypt_group cfg.passphrase
                 (cfg.serJ (Mesh.normalizePayload (JVal.obj [("kind", .str "typing"),
                   ("chat_id", .str chatId), ("typing", .boolV flag)])))
                 r.msgId r.nonce),
               reply_to := none }] := by
        simp only [Mesh.send_typing, Mesh.send_system, Mesh.send_payload, ht]
        rfl
      rw [horig] at hmem
      rw [List.mem_singleton] at hmem
      subst hmem
      simp at henc
    · have hd : (decide (toN = "*")) = false := by simp [ht]
      have horig : (Mesh.send_typing cfg s chatId toN flag r now).originated
          = [{ msg_id := r.msgId, sender := cfg.nodeId, toId := some toN,
               ttl := some cfg.defaultTtl, hop := some 0, timestamp := some now,
               type := some "system", enc := some "none",
               payload := .plain (JVal.obj [("kind", .str "typing"),
                 ("chat_id", .str chatId), ("typing", .boolV flag)]),
               reply_to := none }] := by
        simp only [Mesh.send_typing, Mesh.send_system, Mesh.send_payload, hd]
        rfl
      rw [horig] at hmem
      rw [List.mem_singleton] at hmem
      subst hmem
      refine ⟨rfl, ?_⟩
      simp [ht]
  · intro cfg s r now env2 hmem
    have horig : (Mesh.hello_beacon cfg s r now).originated
        = [{ msg_id := r.msgId, sender := cfg.nodeId, toId := some "*",
             ttl := some cfg.defaultTtl, hop := some 0, timestamp := some now,
             type := some "system", enc := some "group",
             payload := .group (CryptoManager.encrypt_group cfg.passphrase
               (cfg.serJ (Mesh.normalizePayload (JVal.obj [("kind", .str "hello"),
                 ("node_id", .str cfg.nodeId), ("ts", .num now)])))
               r.msgId r.nonce),
             reply_to := none }] := by
      simp only [Mesh.hello_beacon, Mesh.send_system, Mesh.send_payload]
      rfl
    rw [horig] at hmem
    rw [List.mem_singleton] at hmem
    subst hmem
    simp
  · intro cfg s peer initPriv msgId now fid
    exact ⟨rfl, rfl⟩
  · intro cfg s env respPriv respMsgId now respFrameId a e
    exact on_noise_init_mesh_frames cfg s env respPriv respMsgId now respFrameId a e

/-- The typing envelope of the C9 witness. -/
def c9TypEnv : Envelope :=
  (Mesh.send_typing cfgA c3State "bbbbbbbb" "bbbbbbbb" true c3Rand 50).envelope

/-- Witness for C9 (amended): the typing conjunct applied to a concrete
direct typing send, whose plaintext envelope is a typing notification to
a specific peer. -/
theorem claim_C9_witness :
    Mesh.plainKind c9TypEnv = some "typing" ∧ c9TypEnv.toId ≠ some "*" :=
  claim_C9_amended.2.2.2.1 cfgA c3State "bbbbbbbb" "bbbbbbbb" true c3Rand 50
    c9TypEnv (List.mem_singleton.mpr rfl) rfl

/-- Failing transport for the C8 witness: every BLE write fails. -/
def c8Cfg : Cfg := { cfgA with bleOk := (fun _ => false) }

/-- Queued outbox row for bbbbbbbb, for the C8 witness. -/
def c8Row : OutboxRow := ⟨0, some "bbbbbbbb", c3PlainEnv, 10⟩

/-- State with one queued outbox row for bbbbbbbb, for the C8 witness. -/
def c8State : MeshState :=
  ⟨{ emptyDb with outbox := [c8Row], outboxNextId := 1 }, [], [], [],
    [("bbbbbbbb", "addrB")]⟩

/-- Witness for C8 at a concrete outbox whose single resend fails. -/
theorem claim_C8_witness :
    (Database.dequeue_outbox_for c8State.db "bbbbbbbb" 100).length ≤ 100 ∧
    (∀ r ∈ Database.dequeue_outbox_for c8State.db "bbbbbbbb" 100,
      r.recipient = some "bbbbbbbb") ∧
    (Database.dequeue_outbox_for c8State.db "bbbbbbbb" 100).Pairwise
      (fun a b => a.id ≤ b.id) ∧
    (∀ row ok,
      (row, ok) ∈ (Mesh.flush_outbox_for c8Cfg c8State "bbbbbbbb" (fun _ => "g")
        20).2.2 →
      ok = false →
      ∃ r2 ∈ (Mesh.flush_outbox_for c8Cfg c8State "bbbbbbbb" (fun _ => "g")
        20).1.db.outbox, r2.envelope = row.envelope) :=
  claim_C8_outbox_drain c8Cfg c8State "bbbbbbbb" (fun _ => "g") 20 (by decide)

/-- Witness for C4 (amended): the no-session conjunct at the concrete
no-session send (no row for m1) and the encrypted-send conjunct at the
concrete session send (exactly one outgoing row for m1). -/
theorem claim_C4_witness :
    ((Mesh.send_payload cfgA c3State "bbbbbbbb" "text" (.str "hi") none none c3Rand
        100).state.db.messages.filter (fun row => row.msg_id = "m1")) = [] ∧
    ∃ row : MsgRow,
      ((Mesh.send_payload cfgA c1StateA "bbbbbbbb" "text" (.str "hi") none none
          c1Rand 100).state.db.messages.filter (fun r2 => r2.msg_id = "m1")) = [row] ∧
      row.outgoing = true :=
  ⟨claim_C4_amended.1 cfgA c3State "bbbbbbbb" "text" (.str "hi") none none c3Rand 100
      (by decide) (by decide) rfl (by decide) (by decide),
   claim_C4_amended.2.1 cfgA c1StateA "bbbbbbbb" "text" (.str "hi") none none c1Rand
      100 (Or.inr (Or.inr rfl))⟩
